import Mathlib

/-!
Shallow embedding of the `idrac-golden-template` repository
(`src/idrac_common.py`, `src/import_scp.py`, `src/export_scp.py`) and proofs
about the claims of its specification.

Python strings are modelled as `List Char`; Python dicts/JSON values as the
inductive `Json`; machine-level HTTP traffic as explicit `World` records
supplying the response of each request; fallible Python code returns
`Except PyErr _`.  Wall-clock time is discrete: every request is instantaneous
and every `time.sleep(s)` advances the clock by `s` seconds.
-/

set_option autoImplicit false

namespace Idrac

/-! ### Python string primitives (`List Char` model) -/

/-- Characters stripped by Python `str.strip()` (ASCII whitespace). -/
def pyIsSpace (c : Char) : Bool :=
  c = ' ' || c = '\t' || c = '\n' || c = '\x0d' || c = '\x0b' || c = '\x0c'

/-- Python `str.lstrip()`. -/
def pyStripL (s : List Char) : List Char := s.dropWhile pyIsSpace

/-- Python `str.strip()` (both ends). -/
def pyStrip (s : List Char) : List Char :=
  ((pyStripL s).reverse.dropWhile pyIsSpace).reverse

/-- Python `s.startswith(pat)`. -/
def listStarts : List Char → List Char → Bool
  | _, [] => true
  | [], _ :: _ => false
  | c :: s, p :: pat => c = p && listStarts s pat

/-- Python `pat in s` (substring containment). -/
def hasSub : List Char → List Char → Bool
  | s, pat =>
    if listStarts s pat then true
    else match s with
      | [] => false
      | _ :: rest => hasSub rest pat

/-- Python `s.split(sep, 1)` for a one-character separator, assuming the
separator occurs: returns the part before the first occurrence and the part
after it.  When the separator does not occur the second component is `[]`. -/
def breakAt (sep : Char) : List Char → List Char × List Char
  | [] => ([], [])
  | c :: rest =>
    if c = sep then ([], rest)
    else
      let (a, b) := breakAt sep rest
      (c :: a, b)

/-- Python `s.split(sep)` for a one-character separator. -/
def splitChar (sep : Char) : List Char → List (List Char)
  | [] => [[]]
  | c :: rest =>
    let parts := splitChar sep rest
    if c = sep then [] :: parts
    else match parts with
      | [] => [[c]]
      | p :: ps => (c :: p) :: ps

/-- Decimal digit character. -/
def digitChar (d : Nat) : Char := Char.ofNat (48 + d)

/-- Decimal rendering helper; the fuel argument is always at least the number
of decimal digits of `n`, so the fuel never runs out at the call site below. -/
def natDigitsGo : Nat → Nat → List Char → List Char
  | 0, _, acc => acc
  | fuel + 1, n, acc =>
    if n < 10 then digitChar n :: acc
    else natDigitsGo fuel (n / 10) (digitChar (n % 10) :: acc)

/-- Python `str(n)` for a natural number. -/
def natDigits (n : Nat) : List Char := natDigitsGo (n + 1) n []

/-- Python `str.upper()` restricted to the ASCII strings the code applies it
to (format names such as `"XML"`, `"JSON"`). -/
def pyUpper (s : List Char) : List Char := s.map Char.toUpper

/-! ### JSON values

Python dict/list/str/int/bool/None values, as delivered by `resp.json()` and
consumed by `json.dumps`.  Object member order is Python dict insertion
order. -/

inductive Json where
  | null : Json
  | bool (b : Bool) : Json
  | num (n : Int) : Json
  | str (s : List Char) : Json
  | arr (xs : List Json) : Json
  | obj (kvs : List (List Char × Json)) : Json

/-- First-match association lookup, the model of Python dict indexing (dict
keys are unique, so first-match agrees with the dict). -/
def jLookup (key : List Char) : List (List Char × Json) → Option Json
  | [] => none
  | (k, v) :: rest => if k = key then some v else jLookup key rest

/-- Python `d.get(key, default)` on a dict value. -/
def jGetD (j : Json) (key : List Char) (dflt : Json) : Json :=
  match j with
  | Json.obj kvs => (jLookup key kvs).getD dflt
  | _ => dflt

/-- Python truthiness of a JSON-like value (`if not x`). -/
def pyTruthy : Json → Bool
  | Json.null => false
  | Json.bool b => b
  | Json.num n => n != 0
  | Json.str s => !s.isEmpty
  | Json.arr xs => !xs.isEmpty
  | Json.obj kvs => !kvs.isEmpty

/-- Four-digit lowercase hex rendering used by `\u` escapes. -/
def hexDigit (d : Nat) : Char :=
  if d < 10 then Char.ofNat (48 + d) else Char.ofNat (87 + d)

/-- Render `n` as exactly four hex digits. -/
def hex4 (n : Nat) : List Char :=
  [hexDigit (n / 4096 % 16), hexDigit (n / 256 % 16),
   hexDigit (n / 16 % 16), hexDigit (n % 16)]

/-- `json.dumps` escaping of one character (`ensure_ascii=True` default):
quote and backslash are escaped, the common control characters get their
short escapes, other control characters and all non-ASCII characters become
`\uXXXX` (with a surrogate pair above `0xFFFF`). -/
def jsonEscapeChar (c : Char) : List Char :=
  if c = '"' then ['\\', '"']
  else if c = '\\' then ['\\', '\\']
  else if c = '\n' then ['\\', 'n']
  else if c = '\t' then ['\\', 't']
  else if c = '\x0d' then ['\\', 'r']
  else if c = '\x08' then ['\\', 'b']
  else if c = '\x0c' then ['\\', 'f']
  else if c.toNat < 32 then '\\' :: 'u' :: hex4 c.toNat
  else if c.toNat < 127 then [c]
  else if c.toNat < 65536 then '\\' :: 'u' :: hex4 c.toNat
  else
    let v := c.toNat - 65536
    ('\\' :: 'u' :: hex4 (55296 + v / 1024)) ++ ('\\' :: 'u' :: hex4 (56320 + v % 1024))

/-- `json.dumps` rendering of a string literal. -/
def jsonQuote (s : List Char) : List Char :=
  '"' :: (s.flatMap jsonEscapeChar) ++ ['"']

/-- Python `str(n)` for an int (minus sign for negatives). -/
def intDigits (n : Int) : List Char :=
  if n < 0 then '-' :: natDigits n.natAbs else natDigits n.natAbs

/-- Newline plus `level * indent` spaces, the separator `json.dumps` places
before each element when an `indent` is given. -/
def jsonNewline (indent level : Nat) : List Char :=
  '\n' :: List.replicate (indent * level) ' '

mutual

/-- `json.dumps(v)` body: `indentLevel = none` is the compact default
(separators `", "` and `": "`); `indentLevel = some (i, l)` is
`json.dumps(v, indent=i)` currently nested at depth `l` (separators `","`
plus newline-and-indent, and `": "`). -/
def jsonDump : Json → Option (Nat × Nat) → List Char
  | Json.null, _ => ['n', 'u', 'l', 'l']
  | Json.bool true, _ => ['t', 'r', 'u', 'e']
  | Json.bool false, _ => ['f', 'a', 'l', 's', 'e']
  | Json.num n, _ => intDigits n
  | Json.str s, _ => jsonQuote s
  | Json.arr [], _ => ['[', ']']
  | Json.arr (x :: xs), none =>
    '[' :: (jsonDump x none ++ jsonDumpArr xs none ++ [']'])
  | Json.arr (x :: xs), some (i, l) =>
    '[' :: (jsonNewline i (l + 1) ++ jsonDump x (some (i, l + 1)) ++
      jsonDumpArr xs (some (i, l + 1)) ++ jsonNewline i l ++ [']'])
  | Json.obj [], _ => ['\x7b', '\x7d']
  | Json.obj (kv :: kvs), none =>
    '\x7b' :: (jsonQuote kv.1 ++ [':', ' '] ++ jsonDump kv.2 none ++
      jsonDumpObj kvs none ++ ['\x7d'])
  | Json.obj (kv :: kvs), some (i, l) =>
    '\x7b' :: (jsonNewline i (l + 1) ++ jsonQuote kv.1 ++ [':', ' '] ++
      jsonDump kv.2 (some (i, l + 1)) ++ jsonDumpObj kvs (some (i, l + 1)) ++
      jsonNewline i l ++ ['\x7d'])

/-- Remaining array elements, each preceded by the element separator. -/
def jsonDumpArr : List Json → Option (Nat × Nat) → List Char
  | [], _ => []
  | x :: xs, none => ',' :: ' ' :: (jsonDump x none ++ jsonDumpArr xs none)
  | x :: xs, some (i, l) =>
    ',' :: (jsonNewline i l ++ jsonDump x (some (i, l)) ++ jsonDumpArr xs (some (i, l)))

/-- Remaining object members, each preceded by the member separator. -/
def jsonDumpObj : List (List Char × Json) → Option (Nat × Nat) → List Char
  | [], _ => []
  | kv :: kvs, none =>
    ',' :: ' ' :: (jsonQuote kv.1 ++ [':', ' '] ++ jsonDump kv.2 none ++ jsonDumpObj kvs none)
  | kv :: kvs, some (i, l) =>
    ',' :: (jsonNewline i l ++ jsonQuote kv.1 ++ [':', ' '] ++
      jsonDump kv.2 (some (i, l)) ++ jsonDumpObj kvs (some (i, l)))

end

/-- `json.dumps(v)` with default separators. -/
def jsonDumps (v : Json) : List Char := jsonDump v none

/-- `json.dumps(v, indent=i)`. -/
def jsonDumpsIndent (v : Json) (i : Nat) : List Char := jsonDump v (some (i, 0))

/-! ### IPv4 addresses (`ipaddress.IPv4Address`)

An address is a `Nat` below `2^32`.  `ipaddress.IPv4Address(s)` accepts
exactly four dot-separated decimal octets, each without leading zeros and at
most 255; anything else raises `AddressValueError` (a `ValueError`). -/

/-- One octet of a dotted-quad literal: 1–3 decimal digits, no leading zero
(except `"0"` itself), value at most 255. -/
def parseOctet (s : List Char) : Option Nat :=
  if s = [] then none
  else if s.length > 3 then none
  else if ¬ s.all (fun c => c.isDigit) then none
  else if s.length > 1 ∧ s.headI = '0' then none
  else
    let v := s.foldl (fun acc c => acc * 10 + (c.toNat - 48)) 0
    if v ≤ 255 then some v else none

/-- `ipaddress.IPv4Address(s)` as a partial parse to the numeric address. -/
def parseIPv4 (s : List Char) : Option Nat :=
  match splitChar '.' s with
  | [a, b, c, d] =>
    match parseOctet a, parseOctet b, parseOctet c, parseOctet d with
    | some x, some y, some z, some w => some (((x * 256 + y) * 256 + z) * 256 + w)
    | _, _, _, _ => none
  | _ => none

/-- Python `str(IPv4Address(n))`: canonical dotted-quad rendering. -/
def ipv4ToStr (n : Nat) : List Char :=
  natDigits (n / 16777216 % 256) ++ '.' ::
    (natDigits (n / 65536 % 256) ++ '.' ::
      (natDigits (n / 256 % 256) ++ '.' :: natDigits (n % 256)))

/-! ### Errors

One constructor per semantically distinct Python raise site reached by the
embedded code.  All of these derive from Python `Exception`, so all are
caught by the orchestrator's `except Exception` handler. -/

inductive PyErr where
  /-- `AttributeError`: attribute lookup on an object that lacks it. -/
  | attributeError : PyErr
  /-- `TypeError` (e.g. `in` or iteration on an incompatible value). -/
  | typeError : PyErr
  /-- `IndexError` (e.g. `[][0]`). -/
  | indexError : PyErr
  /-- `ipaddress.AddressValueError` (a `ValueError`): malformed IPv4 literal,
  or incrementing past `255.255.255.255`. -/
  | addressValueError : PyErr
  /-- `ValueError` raised by `expand_targets` for an inverted range. -/
  | rangeValueError : PyErr
  /-- `ConnectionError` raised by `IdracSession._request` after the retry
  budget is exhausted, carrying the last underlying `requests` exception. -/
  | connectionFailed (lastCause : Option Nat) : PyErr
  /-- `PermissionError`: HTTP 401 from the generation probe. -/
  | permissionError : PyErr
  /-- `RuntimeError` from `initialize`: probe returned neither 401 nor 200. -/
  | probeHttpError (status : Nat) : PyErr
  /-- `TimeoutError` from `poll_job`. -/
  | jobTimeout : PyErr
  /-- `RuntimeError` from `export_scp`: POST status not in (200, 202). -/
  | exportBadStatus (status : Nat) : PyErr
  /-- `RuntimeError` from `export_scp`: no `Location` header. -/
  | exportNoLocation : PyErr
  /-- `RuntimeError` from `export_scp`: job finished in a non-Completed state. -/
  | exportJobFailed (state : List Char) : PyErr
  /-- `RuntimeError` from `export_scp`: job completed but no payload found. -/
  | exportEmptyPayload : PyErr
  /-- `OSError` from `open()` in `_read_scp_file` (file missing/unreadable). -/
  | fileError : PyErr
deriving DecidableEq

/-! ### HTTP responses and the network model -/

/-- The parts of a `requests.Response` the code reads: `status_code`,
`headers`, `json()` and `text`.  Responses whose body the code parses with
`.json()` are modelled as already-parsed `Json` values. -/
structure Response where
  status_code : Nat
  headers : List (List Char × List Char)
  jsonBody : Json
  textBody : List Char

/-- Python `resp.headers.get(key, "")`. -/
def headerGetD (r : Response) (key : List Char) : List Char :=
  match r.headers.find? (fun kv => kv.1 = key) with
  | some kv => kv.2
  | none => []

/-- The environment of one `IdracSession`: the outcome of each logical HTTP
request it can issue (after `_request`'s transport retry loop: `Except.error`
is a raise escaping `_request`), plus the content of the local SCP file.
`action` maps the POSTed payload to the response; `task` maps a job id and
the index of the poll to the response of that poll. -/
structure World where
  managers : Except PyErr Response
  action : Json → Except PyErr Response
  task : List Char → Nat → Except PyErr Response
  file : Except PyErr (List Char)

/-! ### `IdracSession` (`src/idrac_common.py`, lines 75–183) -/

/-- The attributes `IdracSession` instances actually have: the instance
attributes set by `__init__` and the methods defined by the class.  There is
no `check_supported` and no `detect_generation` anywhere in the repository. -/
def idracSessionAttrs : List (List Char) :=
  ["ip".data, "username".data, "password".data, "verify_ssl".data,
   "timeout".data, "retries".data, "base_url".data, "idrac_version".data,
   "_request".data, "get".data, "post".data, "initialize".data,
   "oem_action_uri".data, "poll_job".data]

/-- Python `hasattr(session, name)` for an `IdracSession`; attribute access
on a missing name raises `AttributeError`. -/
def sessionHasAttr (name : List Char) : Bool :=
  idracSessionAttrs.contains name

/-- The mutable state of an `IdracSession`: constructor fields plus the
generation cache `idrac_version` (initially `None`). -/
structure IdracSession where
  ip : List Char
  username : List Char
  password : List Char
  verify_ssl : Bool
  timeout : Nat
  retries : Nat
  idrac_version : Option Nat

/-- `IdracSession.__init__`. -/
def mkIdracSession (ip username password : List Char) (verify_ssl : Bool)
    (timeout retries : Nat) : IdracSession :=
  { ip := ip, username := username, password := password,
    verify_ssl := verify_ssl, timeout := timeout, retries := retries,
    idrac_version := none }

/-! ### `IdracSession._request` transport retry loop (lines 89–109)

Modelled standalone against a transport oracle: `transport i` is the outcome
of the `i`-th call to `requests.request` (an `Except.error e` is a
`requests.exceptions.ConnectionError` whose identity is the payload `e`).
The result records the response or final raise, the list of back-off sleeps
performed (in seconds, in order), and the number of transport calls made. -/

def requestGo (transport : Nat → Except Nat Response) (retries : Nat) :
    Nat → Option Nat → Except PyErr Response × List Nat × Nat
  | attempt, lastExc =>
    if retries + 1 ≤ attempt then
      (Except.error (PyErr.connectionFailed lastExc), [], 0)
    else
      match transport (attempt - 1) with
      | Except.ok resp => (Except.ok resp, [], 1)
      | Except.error exc =>
        let (res, sleeps, calls) := requestGo transport retries (attempt + 1) (some exc)
        if attempt < retries then (res, 2 ^ attempt :: sleeps, calls + 1)
        else (res, sleeps, calls + 1)
  termination_by attempt _ => retries + 1 - attempt

/-- `IdracSession._request`: `for attempt in range(1, retries + 1)` with
exponential back-off `2 ** attempt` between attempts, then
`raise ConnectionError(... last_exc)`. -/
def pyRequest (transport : Nat → Except Nat Response) (retries : Nat) :
    Except PyErr Response × List Nat × Nat :=
  requestGo transport retries 1 none

/-! ### Redfish constants (lines 17–25) -/

def MANAGERS_URI : List Char := "/redfish/v1/Managers/iDRAC.Embedded.1".data

def TASK_SERVICE_URI : List Char := "/redfish/v1/TaskService/Tasks".data

/-- `OEM_ACTIONS["v10"]`. -/
def OEM_ACTION_V10 : List Char := "OemManager".data

/-- `OEM_ACTIONS["legacy"]`. -/
def OEM_ACTION_LEGACY : List Char := "EID_674_Manager".data

/-! ### `IdracSession.initialize` (lines 117–147)

Each higher-level operation counts the logical HTTP requests it issues (one
per `self.get`/`self.post` call); the count is the second component. -/

/-- The generation classification of the probed model string
(lines 139–144). -/
def classifyGen (model : List Char) : Nat :=
  if hasSub model "12".data || hasSub model "13".data then 8
  else if hasSub model "14".data || hasSub model "15".data || hasSub model "16".data then 9
  else 10

/-- `initialize`: returns the cached generation if set; otherwise issues the
single probe GET, maps 401 to `PermissionError`, any other non-200 status to
`RuntimeError`, and on 200 classifies `body.get("Model", "")` and caches the
result.  A non-string `Model` value would make the Python `in` test raise
`TypeError`. -/
def initSession (s : IdracSession) (w : World) :
    Except PyErr (Nat × IdracSession) × Nat :=
  match s.idrac_version with
  | some v => (Except.ok (v, s), 0)
  | none =>
    match w.managers with
    | Except.error e => (Except.error e, 1)
    | Except.ok resp =>
      if resp.status_code = 401 then (Except.error PyErr.permissionError, 1)
      else if resp.status_code ≠ 200 then
        (Except.error (PyErr.probeHttpError resp.status_code), 1)
      else
        match jGetD resp.jsonBody ("Model".data) (Json.str []) with
        | Json.str model =>
          let v := classifyGen model
          (Except.ok (v, { s with idrac_version := some v }), 1)
        | _ => (Except.error PyErr.typeError, 1)

/-- The URI built by `oem_action_uri` once the generation is known
(line 153–154). -/
def oemUriFor (v : Nat) (act : List Char) : List Char :=
  MANAGERS_URI ++ "/Actions/Oem/".data ++
    (if 10 ≤ v then OEM_ACTION_V10 else OEM_ACTION_LEGACY) ++ '.' :: act

/-- `oem_action_uri` (lines 149–154): triggers `initialize` when the
generation is not yet cached. -/
def oem_action_uri (s : IdracSession) (w : World) (act : List Char) :
    Except PyErr (List Char × IdracSession) × Nat :=
  match s.idrac_version with
  | some v => (Except.ok (oemUriFor v act, s), 0)
  | none =>
    match initSession s w with
    | (Except.error e, n) => (Except.error e, n)
    | (Except.ok (v, s2), n) => (Except.ok (oemUriFor v act, s2), n)

/-! ### `IdracSession.poll_job` (lines 156–183)

The poll loop's clock: the `n`-th GET happens at elapsed time
`n * poll_interval` (requests are instantaneous, each sleep adds
`poll_interval`).  The model takes a positivity witness for the interval
because with an instantaneous-request clock a zero interval would never
advance time (in Python, wall-clock latency still advances `elapsed`). -/

/-- `data.get("TaskState", "Unknown")`. -/
def taskStateOf (data : Json) : Json :=
  jGetD data ("TaskState".data) (Json.str ("Unknown".data))

/-- Membership of the task state in the terminal tuple
`("Completed", "CompletedWithErrors", "Failed", "Exception")` — a Python
`in` test, false for any non-string state value. -/
def isTerminalTaskState : Json → Bool
  | Json.str s =>
    s = "Completed".data || s = "CompletedWithErrors".data ||
      s = "Failed".data || s = "Exception".data
  | _ => false

/-- The effect of `data.get("Messages", [{}])[0].get("Message", "")`
(line 175): the text itself is only logged, but the expression raises
`IndexError` on an empty `Messages` array (`[][0]`), `AttributeError` when
the first element is not a dict, and `TypeError` when `Messages` is neither
a list nor a string. -/
def firstMessageRead (data : Json) : Except PyErr Unit :=
  match jGetD data ("Messages".data) (Json.arr [Json.obj []]) with
  | Json.arr [] => Except.error PyErr.indexError
  | Json.arr (Json.obj _ :: _) => Except.ok ()
  | Json.arr (_ :: _) => Except.error PyErr.attributeError
  | Json.str [] => Except.error PyErr.indexError
  | Json.str (_ :: _) => Except.error PyErr.attributeError
  | _ => Except.error PyErr.typeError

/-- The polling loop from iteration `n` on.  Checks the timeout before any
request (strict `elapsed > job_timeout`), then GETs the job resource,
evaluates the logged message expression, returns the full body on a terminal
state, and otherwise sleeps and repeats.  The second component counts the
status requests issued. -/
def pollGo (w : World) (jobId : List Char) (interval timeout : Nat)
    (hpos : 0 < interval) (n : Nat) : Except PyErr Json × Nat :=
  if _h : timeout < n * interval then (Except.error PyErr.jobTimeout, 0)
  else
    match w.task jobId n with
    | Except.error e => (Except.error e, 1)
    | Except.ok resp =>
      match firstMessageRead resp.jsonBody with
      | Except.error e => (Except.error e, 1)
      | Except.ok _ =>
        if isTerminalTaskState (taskStateOf resp.jsonBody) then
          (Except.ok resp.jsonBody, 1)
        else
          let (res, m) := pollGo w jobId interval timeout hpos (n + 1)
          (res, m + 1)
  termination_by timeout + 1 - n * interval
  decreasing_by
    simp only [Nat.succ_mul]
    omega

/-- `poll_job(job_id, poll_interval, job_timeout)`. -/
def poll_job (w : World) (jobId : List Char) (interval timeout : Nat)
    (hpos : 0 < interval) : Except PyErr Json × Nat :=
  pollGo w jobId interval timeout hpos 0

/-! ### `expand_targets` (lines 48–72) -/

/-- The `while current <= end` loop, by recursion on the remaining iteration
count `end + 1 - current`.  Appends `str(current)` and performs
`current += 1`, which raises `AddressValueError` when it would pass
`255.255.255.255`; the exception discards everything accumulated so far
because it propagates out of `expand_targets`. -/
def ipRangeGo : Nat → Nat → Except PyErr (List (List Char))
  | _, 0 => Except.ok []
  | cur, k + 1 =>
    if cur + 1 < 4294967296 then
      match ipRangeGo (cur + 1) k with
      | Except.ok rest => Except.ok (ipv4ToStr cur :: rest)
      | Except.error e => Except.error e
    else Except.error PyErr.addressValueError

/-- The addresses produced for the inclusive range `a-b` (empty when
`b < a`, although `expand_targets` raises before reaching that case). -/
def ipRangeStrs (a b : Nat) : Except PyErr (List (List Char)) :=
  ipRangeGo a (b + 1 - a)

/-- `expand_targets`: strips each entry, treats entries containing `-` (and
not starting with it) as dash ranges split at the first `-` with both halves
parsed as IPv4 literals, raises `ValueError` on an inverted range, expands
in place, and validates-and-keeps any other entry as a literal.  Duplicates
are never removed. -/
def expand_targets : List (List Char) → Except PyErr (List (List Char))
  | [] => Except.ok []
  | e0 :: rest =>
    let entry := pyStrip e0
    if hasSub entry ['-'] && !(listStarts entry ['-']) then
      match parseIPv4 (pyStrip (breakAt '-' entry).1) with
      | none => Except.error PyErr.addressValueError
      | some a =>
        match parseIPv4 (pyStrip (breakAt '-' entry).2) with
        | none => Except.error PyErr.addressValueError
        | some b =>
          if b < a then Except.error PyErr.rangeValueError
          else
            match ipRangeStrs a b with
            | Except.error e => Except.error e
            | Except.ok xs =>
              match expand_targets rest with
              | Except.error e => Except.error e
              | Except.ok ys => Except.ok (xs ++ ys)
    else
      match parseIPv4 entry with
      | none => Except.error PyErr.addressValueError
      | some _ =>
        match expand_targets rest with
        | Except.error e => Except.error e
        | Except.ok ys => Except.ok (entry :: ys)

/-! ### `_extract_scp_content` (`src/export_scp.py`, lines 107–141) -/

/-- Python `str(v)` as far as the embedded code observes it (only inside
error/log strings, never compared structurally); container values are
approximated by their JSON serialization. -/
def pyStrOf : Json → List Char
  | Json.null => "None".data
  | Json.bool true => "True".data
  | Json.bool false => "False".data
  | Json.num n => intDigits n
  | Json.str s => s
  | j => jsonDump j none

/-- First loop (lines 116–124): look for `Oem.Dell.ServerConfigurationProfile`
in each message.  On a hit, JSON format re-serializes the value with
`json.dumps(..., indent=2)` while XML returns the value as-is.  Non-dict
messages (or `Oem` values) make `.get` raise `AttributeError`; non-dict
`Dell` values make the `in` test or the indexing raise as Python would. -/
def extractLoop1 (fmt : List Char) : List Json → Except PyErr (Option Json)
  | [] => Except.ok none
  | msg :: rest =>
    match msg with
    | Json.obj kvs =>
      match (jLookup ("Oem".data) kvs).getD (Json.obj []) with
      | Json.obj okvs =>
        match (jLookup ("Dell".data) okvs).getD (Json.obj []) with
        | Json.obj dkvs =>
          match jLookup ("ServerConfigurationProfile".data) dkvs with
          | some v =>
            if pyUpper fmt = "JSON".data then
              Except.ok (some (Json.str (jsonDumpsIndent v 2)))
            else Except.ok (some v)
          | none => extractLoop1 fmt rest
        | Json.str s =>
          if hasSub s ("ServerConfigurationProfile".data) then
            Except.error PyErr.typeError
          else extractLoop1 fmt rest
        | Json.arr xs =>
          if xs.any (fun j => match j with
              | Json.str t => t = "ServerConfigurationProfile".data
              | _ => false) then
            Except.error PyErr.typeError
          else extractLoop1 fmt rest
        | _ => Except.error PyErr.typeError
      | _ => Except.error PyErr.attributeError
    | _ => Except.error PyErr.attributeError

/-- Second loop (lines 127–132): return the first message text that, after
stripping, starts with `<` (XML) or with an opening brace (JSON).  The strip
is only evaluated when the format matches, so a non-string `Message` value
raises `AttributeError` exactly in that case. -/
def extractLoop2 (fmt : List Char) : List Json → Except PyErr (Option (List Char))
  | [] => Except.ok none
  | msg :: rest =>
    match msg with
    | Json.obj kvs =>
      if pyUpper fmt = "XML".data || pyUpper fmt = "JSON".data then
        match (jLookup ("Message".data) kvs).getD (Json.str []) with
        | Json.str content =>
          if pyUpper fmt = "XML".data && listStarts (pyStrip content) ['<'] then
            Except.ok (some content)
          else if pyUpper fmt = "JSON".data && listStarts (pyStrip content) ['\x7b'] then
            Except.ok (some content)
          else extractLoop2 fmt rest
        | _ => Except.error PyErr.attributeError
      else extractLoop2 fmt rest
    | _ => Except.error PyErr.attributeError

def sysOpenPat : List Char := "<SystemConfiguration".data

def sysClosePat : List Char := "</SystemConfiguration>".data

/-- All indices at which `pat` occurs in `s`, ascending. -/
def occIdxs (s pat : List Char) : List Nat :=
  (List.range (s.length + 1)).filter (fun i => listStarts (s.drop i) pat)

/-- `re.search(r"(<SystemConfiguration.*</SystemConfiguration>)", raw,
re.DOTALL)`: leftmost start of the opening literal, then the greedy `.*`
extends the match to the last occurrence of the closing literal that starts
at or after the end of the opening one. -/
def regexSysConfig (raw : List Char) : Option (List Char) :=
  match (occIdxs raw sysOpenPat).head? with
  | none => none
  | some i =>
    match ((occIdxs raw sysClosePat).filter (fun j => i + sysOpenPat.length ≤ j)).getLast? with
    | none => none
    | some j => some ((raw.take (j + sysClosePat.length)).drop i)

/-- `_extract_scp_content(task_data, export_format)`.  `messages` is
`task_data.get("Messages", [])`; iterating a non-list raises as in Python
(`AttributeError` via `.get` on a character or key for nonempty strings and
dicts, `TypeError` for non-iterables).  The result is the Python return
value: a string, except for the XML structured-field path which returns the
stored value unchanged. -/
def extract_scp_content (task_data : Json) (fmt : List Char) : Except PyErr Json :=
  match jGetD task_data ("Messages".data) (Json.arr []) with
  | Json.arr msgs =>
    match extractLoop1 fmt msgs with
    | Except.error e => Except.error e
    | Except.ok (some v) => Except.ok v
    | Except.ok none =>
      match extractLoop2 fmt msgs with
      | Except.error e => Except.error e
      | Except.ok (some c) => Except.ok (Json.str c)
      | Except.ok none =>
        if pyUpper fmt = "XML".data then
          match regexSysConfig (jsonDumps task_data) with
          | some m => Except.ok (Json.str m)
          | none => Except.ok (Json.str [])
        else Except.ok (Json.str [])
  | Json.str [] => Except.ok (Json.str [])
  | Json.str (_ :: _) => Except.error PyErr.attributeError
  | Json.obj [] => Except.ok (Json.str [])
  | Json.obj (_ :: _) => Except.error PyErr.attributeError
  | _ => Except.error PyErr.typeError

/-! ### `export_scp` (`src/export_scp.py`, lines 18–104) -/

/-- The last `/`-separated segment, `job_uri.split("/")[-1]`. -/
def lastSegment (s : List Char) : List Char := (splitChar '/' s).getLastD []

/-- Python `x == "lit"` for a JSON-like value: string comparison, false for
any non-string value (no raise). -/
def jsonEqStr (j : Json) (s : List Char) : Bool :=
  match j with
  | Json.str t => t = s
  | _ => false

/-- `"; ".join(m.get("Message", "") for m in messages)` on the export
failure path: every element must be a dict and every message text a string,
otherwise `.get` or `join` raises. -/
def joinMessages : List Json → Except PyErr (List Char)
  | [] => Except.ok []
  | msg :: rest =>
    match msg with
    | Json.obj kvs =>
      match (jLookup ("Message".data) kvs).getD (Json.str []) with
      | Json.str m =>
        match rest with
        | [] => Except.ok m
        | _ =>
          match joinMessages rest with
          | Except.error e => Except.error e
          | Except.ok tl => Except.ok (m ++ ';' :: ' ' :: tl)
      | _ => Except.error PyErr.typeError
    | _ => Except.error PyErr.attributeError

/-- The export request payload (lines 40–49): `ExportFormat` and
`ShareParameters.Target`, plus `IncludeInExport` when the include policy is
not `Default` and the generation is at least 9. -/
def exportPayload (fmt target includeOpt : List Char) (gen : Nat) : Json :=
  Json.obj
    ([("ExportFormat".data, Json.str fmt),
      ("ShareParameters".data, Json.obj [("Target".data, Json.str target)])] ++
      (if includeOpt ≠ "Default".data ∧ 9 ≤ gen then
        [("IncludeInExport".data, Json.str includeOpt)]
       else []))

/-- `export_scp` up to the extracted payload (lines 37–84): initialize the
session, POST the export action, require status 200/202 and a `Location`
header, poll the job, require terminal state `Completed`, extract the
configuration content and require it non-empty.  The subsequent local file
write (lines 86–104) only persists this value, so the model returns it. -/
def export_scp (s : IdracSession) (w : World)
    (target fmt includeOpt : List Char) (interval timeout : Nat)
    (hpos : 0 < interval) : Except PyErr Json :=
  match (initSession s w).1 with
  | Except.error e => Except.error e
  | Except.ok (gen, s2) =>
    match (oem_action_uri s2 w ("ExportSystemConfiguration".data)).1 with
    | Except.error e => Except.error e
    | Except.ok (_, _) =>
      match w.action (exportPayload fmt target includeOpt gen) with
      | Except.error e => Except.error e
      | Except.ok resp =>
        if resp.status_code ≠ 200 ∧ resp.status_code ≠ 202 then
          Except.error (PyErr.exportBadStatus resp.status_code)
        else
          match headerGetD resp ("Location".data) with
          | [] => Except.error PyErr.exportNoLocation
          | loc =>
            match (poll_job w (lastSegment loc) interval timeout hpos).1 with
            | Except.error e => Except.error e
            | Except.ok td =>
              if jsonEqStr (taskStateOf td) ("Completed".data) then
                match extract_scp_content td fmt with
                | Except.error e => Except.error e
                | Except.ok content =>
                  if pyTruthy content then Except.ok content
                  else Except.error PyErr.exportEmptyPayload
              else
                match jGetD td ("Messages".data) (Json.arr []) with
                | Json.arr msgs =>
                  match joinMessages msgs with
                  | Except.error e => Except.error e
                  | Except.ok _ => Except.error (PyErr.exportJobFailed (pyStrOf (taskStateOf td)))
                | Json.str [] => Except.error (PyErr.exportJobFailed (pyStrOf (taskStateOf td)))
                | Json.str (_ :: _) => Except.error PyErr.attributeError
                | Json.obj [] => Except.error (PyErr.exportJobFailed (pyStrOf (taskStateOf td)))
                | Json.obj (_ :: _) => Except.error PyErr.attributeError
                | _ => Except.error PyErr.typeError

/-! ### `_read_scp_file` (`src/import_scp.py`, lines 149–161) -/

/-- Whitespace class of the regex `\s` (ASCII range; the embedded SCP files
are ASCII). -/
def reIsSpace (c : Char) : Bool := pyIsSpace c

/-- One left-to-right pass of `re.sub(r">\s+<", "><", content)` as a
streaming state machine: `pending = some ws` means the scan sits right after
a `>` (already emitted) with the whitespace run `ws` (reversed) not yet
emitted; meeting `<` at that point completes a match and drops the run. -/
def collapseGo : Option (List Char) → List Char → List Char
  | none, [] => []
  | some ws, [] => ws.reverse
  | none, c :: rest =>
    if c = '>' then '>' :: collapseGo (some []) rest
    else c :: collapseGo none rest
  | some ws, c :: rest =>
    if reIsSpace c then collapseGo (some (c :: ws)) rest
    else if c = '<' then
      if ws.isEmpty then '<' :: collapseGo none rest
      else '<' :: collapseGo none rest
    else if c = '>' then ws.reverse ++ '>' :: collapseGo (some []) rest
    else ws.reverse ++ c :: collapseGo none rest

/-- `_read_scp_file` on the raw file text: collapse whitespace between tag
boundaries, delete all newlines, strip. -/
def read_scp_file (raw : List Char) : List Char :=
  pyStrip ((collapseGo none raw).filter (fun c => c ≠ '\n'))

/-! ### `import_scp` (`src/import_scp.py`, lines 16–90)

`import_scp` begins with `session.check_supported()` and
`session.detect_generation()` (lines 33–34).  `IdracSession` defines neither
attribute — nor does any other file of the repository — so the very first
attribute lookup raises `AttributeError` before anything else runs.  The
guarded branch below is therefore dead code, reachable only if the class
gained those methods. -/

/-- The import request payload (lines 50–57). -/
def importPayload (scp target shutdown power : List Char) : Json :=
  Json.obj
    [("ImportBuffer".data, Json.str scp),
     ("ShutdownType".data, Json.str shutdown),
     ("HostPowerState".data, Json.str power),
     ("ShareParameters".data, Json.obj [("Target".data, Json.str target)])]

/-- `"; ".join(m.get("Message", "") for m in messages if m.get("Message"))`
(line 81): like the export join but keeping only truthy message values; a
kept non-string value would make `join` raise `TypeError`. -/
def joinMessagesTruthy : List Json → Except PyErr (List Char)
  | [] => Except.ok []
  | msg :: rest =>
    match msg with
    | Json.obj kvs =>
      let v := (jLookup ("Message".data) kvs).getD Json.null
      if pyTruthy v then
        match v with
        | Json.str m =>
          match joinMessagesTruthy rest with
          | Except.error e => Except.error e
          | Except.ok [] => Except.ok m
          | Except.ok tl => Except.ok (m ++ ';' :: ' ' :: tl)
        | _ => Except.error PyErr.typeError
      else joinMessagesTruthy rest
    | _ => Except.error PyErr.attributeError

/-- The body of `import_scp` from line 36 on (what would run after the two
undefined calls): read and normalize the SCP file, return `False` if it is
empty, POST the import action, return `False` on a status other than
200/202 or a missing `Location` header, poll the job, and return `True`
exactly when the terminal `TaskState` equals `"Completed"`.  The second
component counts the logical HTTP requests issued. -/
def import_scp_body (s : IdracSession) (w : World)
    (target shutdown power : List Char) (interval timeout : Nat)
    (hpos : 0 < interval) : Except PyErr Bool × Nat :=
  match w.file with
  | Except.error e => (Except.error e, 0)
  | Except.ok raw =>
    let scp := read_scp_file raw
    if scp.isEmpty then (Except.ok false, 0)
    else
      match oem_action_uri s w ("ImportSystemConfiguration".data) with
      | (Except.error e, n1) => (Except.error e, n1)
      | (Except.ok (_, _), n1) =>
        match w.action (importPayload scp target shutdown power) with
        | Except.error e => (Except.error e, n1 + 1)
        | Except.ok resp =>
          if resp.status_code ≠ 200 ∧ resp.status_code ≠ 202 then
            (Except.ok false, n1 + 1)
          else
            match headerGetD resp ("Location".data) with
            | [] => (Except.ok false, n1 + 1)
            | loc =>
              match poll_job w (lastSegment loc) interval timeout hpos with
              | (Except.error e, np) => (Except.error e, n1 + 1 + np)
              | (Except.ok td, np) =>
                match jGetD td ("Messages".data) (Json.arr []) with
                | Json.arr msgs =>
                  match joinMessagesTruthy msgs with
                  | Except.error e => (Except.error e, n1 + 1 + np)
                  | Except.ok _ =>
                    (Except.ok (jsonEqStr (taskStateOf td) ("Completed".data)), n1 + 1 + np)
                | Json.str [] =>
                  (Except.ok (jsonEqStr (taskStateOf td) ("Completed".data)), n1 + 1 + np)
                | Json.str (_ :: _) => (Except.error PyErr.attributeError, n1 + 1 + np)
                | Json.obj [] =>
                  (Except.ok (jsonEqStr (taskStateOf td) ("Completed".data)), n1 + 1 + np)
                | Json.obj (_ :: _) => (Except.error PyErr.attributeError, n1 + 1 + np)
                | _ => (Except.error PyErr.typeError, n1 + 1 + np)

/-- `import_scp` as it is written: the attribute lookups
`session.check_supported` and `session.detect_generation` come first, and
since neither attribute exists the call raises `AttributeError` with zero
network activity. -/
def import_scp (s : IdracSession) (w : World)
    (target shutdown power : List Char) (interval timeout : Nat)
    (hpos : 0 < interval) : Except PyErr Bool × Nat :=
  if sessionHasAttr ("check_supported".data) &&
      sessionHasAttr ("detect_generation".data) then
    import_scp_body s w target shutdown power interval timeout hpos
  else (Except.error PyErr.attributeError, 0)

/-! ### `import_scp_to_targets` (`src/import_scp.py`, lines 93–146) -/

/-- The connection/import settings the orchestrator reads out of the parsed
config dict (each a `dict.get` with a default, resolved by the caller of
this model), plus the positivity witness the discrete poll clock needs. -/
structure OrchArgs where
  username : List Char
  password : List Char
  verify_ssl : Bool
  timeout : Nat
  retries : Nat
  target : List Char
  shutdown_type : List Char
  host_power_state : List Char
  poll_interval : Nat
  job_timeout : Nat
  hpos : 0 < poll_interval

/-- The body of the per-target `try` block (lines 123–140): construct a
fresh `IdracSession` for the address and run `import_scp` against the
target's own world. -/
def importOneTarget (a : OrchArgs) (w : World) (ip : List Char) :
    Except PyErr Bool :=
  (import_scp
    (mkIdracSession ip a.username a.password a.verify_ssl a.timeout a.retries)
    w a.target a.shutdown_type a.host_power_state a.poll_interval
    a.job_timeout a.hpos).1

/-- Python dict assignment `results[ip] = ok` on an insertion-ordered
association list: update in place when the key exists, else append. -/
def dictInsert (k : List Char) (v : Bool) :
    List (List Char × Bool) → List (List Char × Bool)
  | [] => [(k, v)]
  | (k2, v2) :: rest =>
    if k2 = k then (k, v) :: rest else (k2, v2) :: dictInsert k v rest

/-- The orchestration loop skeleton: one step per target in order, the
`idx`-th target's boolean recorded under its address. -/
def orchGo (step : Nat → List Char → Bool) :
    List (List Char) → Nat → List (List Char × Bool) → List (List Char × Bool)
  | [], _, acc => acc
  | ip :: rest, idx, acc => orchGo step rest (idx + 1) (dictInsert ip (step idx ip) acc)

/-- `import_scp_to_targets(targets, ...)`: processes the targets strictly in
order; each target's `try` block resolves to its boolean result, with any
`Exception` caught and recorded as `False` (lines 142–144); the loop itself
never raises.  `worlds idx` is the environment the `idx`-th iteration runs
against. -/
def import_scp_to_targets (a : OrchArgs) (targets : List (List Char))
    (worlds : Nat → World) : List (List Char × Bool) :=
  orchGo
    (fun idx ip =>
      match importOneTarget a (worlds idx) ip with
      | Except.ok b => b
      | Except.error _ => false)
    targets 0 []

/-! ### Specification-side vocabulary

Functions used only to state properties; the claims are phrased through
these and proved against the operational definitions above. -/

/-- The addresses of an outcome map, in order. -/
def keysOf (d : List (List Char × Bool)) : List (List Char) := d.map Prod.fst

/-- Lookup in an outcome map. -/
def lookupB (k : List Char) : List (List Char × Bool) → Option Bool
  | [] => none
  | (k2, v) :: rest => if k2 = k then some v else lookupB k rest

/-- First-occurrence deduplication relative to already-seen keys. -/
def dedupSeen (seen : List (List Char)) : List (List Char) → List (List Char)
  | [] => []
  | x :: rest =>
    if x ∈ seen then dedupSeen seen rest
    else x :: dedupSeen (seen ++ [x]) rest

/-- The distinct addresses of a target list, in first-occurrence order. -/
def pyDedupFirst (ts : List (List Char)) : List (List Char) := dedupSeen [] ts

/-- The index of the last occurrence of `x`. -/
def lastIdxOf (x : List Char) : List (List Char) → Option Nat
  | [] => none
  | y :: rest =>
    match lastIdxOf x rest with
    | some j => some (j + 1)
    | none => if y = x then some 0 else none

/-- The boolean the orchestrator records for one target: the returned value,
with any raised exception collapsed to `False`. -/
def excToBool : Except PyErr Bool → Bool
  | Except.ok b => b
  | Except.error _ => false

/-- The `Oem.Dell.ServerConfigurationProfile` value carried by one message,
if any (specification-side reading of the first extraction strategy). -/
def dellFieldOf (msg : Json) : Option Json :=
  match msg with
  | Json.obj kvs =>
    match (jLookup ("Oem".data) kvs).getD (Json.obj []) with
    | Json.obj okvs =>
      match (jLookup ("Dell".data) okvs).getD (Json.obj []) with
      | Json.obj dkvs => jLookup ("ServerConfigurationProfile".data) dkvs
      | _ => none
    | _ => none
  | _ => none

/-- The first vendor-namespaced profile value among the messages. -/
def findDellValue (msgs : List Json) : Option Json :=
  msgs.findSome? dellFieldOf

/-- The text of one message when it starts (after stripping) with the
format-appropriate delimiter. -/
def delimMsgOf (fmt : List Char) (msg : Json) : Option (List Char) :=
  match msg with
  | Json.obj kvs =>
    match (jLookup ("Message".data) kvs).getD (Json.str []) with
    | Json.str content =>
      if pyUpper fmt = "XML".data && listStarts (pyStrip content) ['<'] then some content
      else if pyUpper fmt = "JSON".data && listStarts (pyStrip content) ['\x7b'] then some content
      else none
    | _ => none
  | _ => none

/-- The first message text starting with the format-appropriate delimiter. -/
def findDelimMsg (fmt : List Char) (msgs : List Json) : Option (List Char) :=
  msgs.findSome? (delimMsgOf fmt)

/-- Well-formedness of a message for the structured-field scan: a dict whose
`Oem` value (when present) is a dict whose `Dell` value (when present) is a
dict — the shapes on which the Python loop cannot raise. -/
def msgDellWF (msg : Json) : Bool :=
  match msg with
  | Json.obj kvs =>
    match (jLookup ("Oem".data) kvs).getD (Json.obj []) with
    | Json.obj okvs =>
      match (jLookup ("Dell".data) okvs).getD (Json.obj []) with
      | Json.obj _ => true
      | _ => false
    | _ => false
  | _ => false

/-- Well-formedness of a message for the text scan: a dict whose `Message`
value (when present) is a string. -/
def msgTextWF (msg : Json) : Bool :=
  match msg with
  | Json.obj kvs =>
    match (jLookup ("Message".data) kvs).getD (Json.str []) with
    | Json.str _ => true
    | _ => false
  | _ => false

/-- Whether the logged-message expression of `poll_job` evaluates without
raising on this response body. -/
def messagesReadable (data : Json) : Bool :=
  match firstMessageRead data with
  | Except.ok _ => true
  | Except.error _ => false

/-! ### Concrete fixtures for witnesses and counterexamples -/

/-- A task body reporting a terminal `Completed` state but an empty
`Messages` array. -/
def tdEmptyMessages : Json :=
  Json.obj [("TaskState".data, Json.str ("Completed".data)),
            ("Messages".data, Json.arr [])]

/-- A healthy `Completed` task body with one readable message. -/
def tdCompleted : Json :=
  Json.obj [("TaskState".data, Json.str ("Completed".data)),
            ("Messages".data, Json.arr [Json.obj
              [("Message".data, Json.str ("Successfully imported".data))]])]

/-- A healthy non-terminal (`Running`) task body. -/
def tdRunning : Json :=
  Json.obj [("TaskState".data, Json.str ("Running".data)),
            ("Messages".data, Json.arr [Json.obj
              [("Message".data, Json.str ("Job in progress".data))]])]

/-- A 200 probe response reporting a 14th-generation model. -/
def respProbe14 : Response :=
  { status_code := 200, headers := [],
    jsonBody := Json.obj [("Model".data, Json.str ("14G Monolithic".data))],
    textBody := [] }

/-- A 202 action response carrying a job `Location` header. -/
def respAccepted : Response :=
  { status_code := 202,
    headers := [("Location".data, "/redfish/v1/TaskService/Tasks/JID_123".data)],
    jsonBody := Json.obj [], textBody := [] }

/-- A 500 action response (submission-level fault). -/
def respServerError : Response :=
  { status_code := 500, headers := [], jsonBody := Json.obj [],
    textBody := "Internal Server Error".data }

/-- A 200 poll response with the given task body. -/
def pollResp (j : Json) : Response :=
  { status_code := 200, headers := [], jsonBody := j, textBody := [] }

/-- A world in which every interaction succeeds and the job completes on the
first poll. -/
def wGood : World :=
  { managers := Except.ok respProbe14,
    action := fun _ => Except.ok respAccepted,
    task := fun _ _ => Except.ok (pollResp tdCompleted),
    file := Except.ok ("<SystemConfiguration><x/></SystemConfiguration>".data) }

/-- Like `wGood` but the import POST is rejected with HTTP 500. -/
def wBadStatus : World :=
  { wGood with action := fun _ => Except.ok respServerError }

/-- Like `wGood` but the first poll reports `Completed` with an empty
`Messages` array. -/
def wEmptyMsgs : World :=
  { wGood with task := fun _ _ => Except.ok (pollResp tdEmptyMessages) }

/-- A fresh session for the address `10.0.0.9`. -/
def sTest : IdracSession :=
  mkIdracSession ("10.0.0.9".data) ("root".data) ("calvin".data) false 30 3

/-- `sTest` with generation 9 cached. -/
def sTest9 : IdracSession := { sTest with idrac_version := some 9 }

/-- Orchestrator settings witnessing the config defaults. -/
def aTest : OrchArgs :=
  { username := "root".data, password := "calvin".data, verify_ssl := false,
    timeout := 30, retries := 3, target := "ALL".data,
    shutdown_type := "Graceful".data, host_power_state := "On".data,
    poll_interval := 15, job_timeout := 1800, hpos := by decide }

/-- A task body whose single message carries the vendor-namespaced profile
field with the string value `"x"`. -/
def tdDellX : Json :=
  Json.obj [("Messages".data, Json.arr [Json.obj
    [("Oem".data, Json.obj [("Dell".data, Json.obj
      [("ServerConfigurationProfile".data, Json.str ['x'])])])]])]

/-- Like `wGood` but the job never leaves the `Running` state. -/
def wRunning : World :=
  { wGood with task := fun _ _ => Except.ok (pollResp tdRunning) }

/-- A transport that fails on its first two calls and then succeeds. -/
def tFail2 : Nat → Except Nat Response :=
  fun i => if i = 0 then Except.error 7
    else if i = 1 then Except.error 8
    else Except.ok respAccepted

/-! ## Theorems -/

set_option maxRecDepth 10000

/-- Decimal rendering and octet parsing agree on every octet value. -/
theorem parseOctet_natDigits : ∀ n, n < 256 → parseOctet (natDigits n) = some n := by
  decide

/-- Octet renderings consist of decimal digits. -/
theorem natDigits_digits : ∀ n, n < 256 → (natDigits n).all (fun c => c.isDigit) = true := by
  decide

/-- Octet renderings are nonempty. -/
theorem natDigits_ne_nil : ∀ n, n < 256 → natDigits n ≠ [] := by
  decide

/-- Members of an octet rendering are digits. -/
theorem natDigits_mem_digit {n : Nat} (hn : n < 256) {c : Char}
    (hc : c ∈ natDigits n) : c.isDigit = true := by
  have h := natDigits_digits n hn
  rw [List.all_eq_true] at h
  exact h c hc

/-- A digit is not Python whitespace. -/
theorem isDigit_not_space (c : Char) (h : c.isDigit = true) : pyIsSpace c = false := by
  simp only [pyIsSpace, Bool.or_eq_false_iff, decide_eq_false_iff_not]
  refine ⟨⟨⟨⟨⟨?_, ?_⟩, ?_⟩, ?_⟩, ?_⟩, ?_⟩ <;>
    · intro hc; subst hc; exact absurd h (by decide)

/-- A digit is not a dot. -/
theorem isDigit_ne_dot (c : Char) (h : c.isDigit = true) : c ≠ '.' := by
  intro hc; subst hc; exact absurd h (by decide)

/-- A digit is not a dash. -/
theorem isDigit_ne_dash (c : Char) (h : c.isDigit = true) : c ≠ '-' := by
  intro hc; subst hc; exact absurd h (by decide)

/-- Every character of a dotted-quad rendering is a digit or a dot. -/
theorem ipv4ToStr_mem {n : Nat} {c : Char} (hc : c ∈ ipv4ToStr n) :
    c.isDigit = true ∨ c = '.' := by
  unfold ipv4ToStr at hc
  simp only [List.mem_append, List.mem_cons] at hc
  rcases hc with h | h | h | h | h | h | h
  · exact Or.inl (natDigits_mem_digit (Nat.mod_lt _ (by norm_num)) h)
  · exact Or.inr h
  · exact Or.inl (natDigits_mem_digit (Nat.mod_lt _ (by norm_num)) h)
  · exact Or.inr h
  · exact Or.inl (natDigits_mem_digit (Nat.mod_lt _ (by norm_num)) h)
  · exact Or.inr h
  · exact Or.inl (natDigits_mem_digit (Nat.mod_lt _ (by norm_num)) h)

/-- No dash occurs in a dotted-quad rendering. -/
theorem ipv4ToStr_no_dash (n : Nat) : '-' ∉ ipv4ToStr n := by
  intro hm
  rcases ipv4ToStr_mem hm with h | h
  · exact isDigit_ne_dash _ h rfl
  · exact absurd h (by decide)

/-- `dropWhile` is the identity on a list none of whose elements satisfy the
predicate. -/
theorem dropWhile_all_not {p : Char → Bool} {s : List Char}
    (h : s.all (fun c => !p c) = true) : s.dropWhile p = s := by
  cases s with
  | nil => rfl
  | cons c rest =>
    rw [List.all_cons, Bool.and_eq_true] at h
    have hpc : p c = false := by
      cases hp : p c
      · rfl
      · have := h.1; rw [hp] at this; exact absurd this (by decide)
    rw [List.dropWhile_cons, hpc]
    simp

/-- `strip` is the identity on whitespace-free strings. -/
theorem pyStrip_all_not {s : List Char}
    (h : s.all (fun c => !pyIsSpace c) = true) : pyStrip s = s := by
  unfold pyStrip pyStripL
  rw [dropWhile_all_not h, dropWhile_all_not (by simpa [List.all_reverse] using h),
    List.reverse_reverse]

/-- Dotted-quad renderings contain no whitespace. -/
theorem ipv4ToStr_no_space (n : Nat) :
    (ipv4ToStr n).all (fun c => !pyIsSpace c) = true := by
  rw [List.all_eq_true]
  intro c hc
  rcases ipv4ToStr_mem hc with h | h
  · simp [isDigit_not_space c h]
  · subst h; decide

/-- `strip` leaves a dotted-quad rendering unchanged. -/
theorem pyStrip_ipv4 (n : Nat) : pyStrip (ipv4ToStr n) = ipv4ToStr n :=
  pyStrip_all_not (ipv4ToStr_no_space n)

/-- Splitting a separator-free string returns it whole. -/
theorem splitChar_no_sep (sep : Char) :
    ∀ (a : List Char), sep ∉ a → splitChar sep a = [a] := by
  intro a
  induction a with
  | nil => intro _; rfl
  | cons c rest ih =>
    intro h
    have hc : ¬ c = sep := fun hcs => h (by simp [hcs])
    have hrest : sep ∉ rest := fun hm => h (List.mem_cons_of_mem _ hm)
    simp [splitChar, ih hrest, hc]

/-- Splitting after a separator-free leading chunk peels off that chunk. -/
theorem splitChar_append (sep : Char) :
    ∀ (a rest : List Char), sep ∉ a →
      splitChar sep (a ++ sep :: rest) = a :: splitChar sep rest := by
  intro a
  induction a with
  | nil => intro rest _; simp [splitChar]
  | cons c a2 ih =>
    intro rest h
    have hc : ¬ c = sep := fun hcs => h (by simp [hcs])
    have ha2 : sep ∉ a2 := fun hm => h (List.mem_cons_of_mem _ hm)
    rw [List.cons_append]
    simp only [splitChar, ih rest ha2, hc, if_false]

/-- `split(sep, 1)` after a separator-free leading chunk. -/
theorem breakAt_append (sep : Char) :
    ∀ (a b : List Char), sep ∉ a → breakAt sep (a ++ sep :: b) = (a, b) := by
  intro a
  induction a with
  | nil => intro b _; simp [breakAt]
  | cons c a2 ih =>
    intro b h
    have hc : ¬ c = sep := fun hcs => h (by simp [hcs])
    have ha2 : sep ∉ a2 := fun hm => h (List.mem_cons_of_mem _ hm)
    rw [List.cons_append]
    simp only [breakAt, hc, if_false, ih b ha2]

/-- A one-character pattern that occurs is found by `in`. -/
theorem hasSub_singleton (sep : Char) :
    ∀ (a b : List Char), hasSub (a ++ sep :: b) [sep] = true := by
  intro a
  induction a with
  | nil =>
    intro b
    rw [hasSub.eq_def]
    simp [listStarts]
  | cons c a2 ih =>
    intro b
    rw [List.cons_append, hasSub.eq_def]
    by_cases hs : listStarts (c :: (a2 ++ sep :: b)) [sep] = true
    · simp [hs]
    · simp only [Bool.not_eq_true] at hs
      simp [hs, ih b]

/-- A one-character pattern that does not occur is not found by `in`. -/
theorem hasSub_singleton_not (sep : Char) :
    ∀ (s : List Char), sep ∉ s → hasSub s [sep] = false := by
  intro s
  induction s with
  | nil => intro _; rw [hasSub.eq_def]; simp [listStarts]
  | cons c rest ih =>
    intro h
    have hc : ¬ c = sep := fun hcs => h (by simp [hcs])
    have hrest : sep ∉ rest := fun hm => h (List.mem_cons_of_mem _ hm)
    rw [hasSub.eq_def]
    simp [listStarts, hc, ih hrest]

/-- A dotted-quad rendering starts with a digit. -/
theorem ipv4ToStr_head (n : Nat) :
    ∃ c rest, ipv4ToStr n = c :: rest ∧ c.isDigit = true := by
  cases hnd : natDigits (n / 16777216 % 256) with
  | nil => exact absurd hnd (natDigits_ne_nil _ (Nat.mod_lt _ (by norm_num)))
  | cons c cs =>
    refine ⟨c, cs ++ '.' :: (natDigits (n / 65536 % 256) ++ '.' ::
      (natDigits (n / 256 % 256) ++ '.' :: natDigits (n % 256))), ?_, ?_⟩
    · unfold ipv4ToStr
      rw [hnd]
      simp
    · exact natDigits_mem_digit (Nat.mod_lt _ (by norm_num))
        (hnd ▸ List.mem_cons_self c cs)

/-- The dotted-quad printer and the `IPv4Address` parser are inverse. -/
theorem parseIPv4_ipv4ToStr (n : Nat) (hn : n < 4294967296) :
    parseIPv4 (ipv4ToStr n) = some n := by
  have h1 : n / 16777216 % 256 < 256 := Nat.mod_lt _ (by norm_num)
  have h2 : n / 65536 % 256 < 256 := Nat.mod_lt _ (by norm_num)
  have h3 : n / 256 % 256 < 256 := Nat.mod_lt _ (by norm_num)
  have h4 : n % 256 < 256 := Nat.mod_lt _ (by norm_num)
  have hd1 : '.' ∉ natDigits (n / 16777216 % 256) :=
    fun hm => isDigit_ne_dot _ (natDigits_mem_digit h1 hm) rfl
  have hd2 : '.' ∉ natDigits (n / 65536 % 256) :=
    fun hm => isDigit_ne_dot _ (natDigits_mem_digit h2 hm) rfl
  have hd3 : '.' ∉ natDigits (n / 256 % 256) :=
    fun hm => isDigit_ne_dot _ (natDigits_mem_digit h3 hm) rfl
  have hd4 : '.' ∉ natDigits (n % 256) :=
    fun hm => isDigit_ne_dot _ (natDigits_mem_digit h4 hm) rfl
  unfold parseIPv4 ipv4ToStr
  rw [splitChar_append '.' _ _ hd1, splitChar_append '.' _ _ hd2,
    splitChar_append '.' _ _ hd3, splitChar_no_sep '.' _ hd4]
  simp only [parseOctet_natDigits _ h1, parseOctet_natDigits _ h2,
    parseOctet_natDigits _ h3, parseOctet_natDigits _ h4]
  congr 1
  omega

/-- The range loop produces the inclusive ascending address strings as long
as no increment would pass the maximum address. -/
theorem ipRangeGo_ok :
    ∀ (k a : Nat), a + k < 4294967296 →
      ipRangeGo a k = Except.ok ((List.range' a k).map ipv4ToStr) := by
  intro k
  induction k with
  | zero => intro a _; rfl
  | succ k ih =>
    intro a ha
    rw [ipRangeGo]
    have hlt : a + 1 < 4294967296 := by omega
    simp only [hlt, if_true]
    rw [ih (a + 1) (by omega), List.range'_succ]
    simp

/-- The range loop raises `AddressValueError` when the increment would pass
`255.255.255.255`. -/
theorem ipRangeGo_overflow :
    ∀ (k a : Nat), 1 ≤ k → a + k = 4294967296 →
      ipRangeGo a k = Except.error PyErr.addressValueError := by
  intro k
  induction k with
  | zero => intro a h _; omega
  | succ k ih =>
    intro a _ ha
    rw [ipRangeGo]
    by_cases hk : k = 0
    · subst hk
      have : ¬ (a + 1 < 4294967296) := by omega
      simp [this]
    · have hlt : a + 1 < 4294967296 := by omega
      simp only [hlt, if_true]
      rw [ih (a + 1) (by omega) (by omega)]

/-- C7 (amended): a dash range `a-b` with `a ≤ b` expands, in place, to the
inclusive ascending address sequence from `a` to `b` as long as
`b < 255.255.255.255`; an inverted range raises the range `ValueError`; a
range ending exactly at `255.255.255.255` raises `AddressValueError` from
the increment past the maximum address; expansion concatenates without
deduplication, so repeated literals stay repeated. -/
theorem C7_range_expansion :
    ∀ (a b : Nat),
      (a ≤ b → b < 4294967295 →
        expand_targets [ipv4ToStr a ++ '-' :: ipv4ToStr b] =
          Except.ok ((List.range' a (b + 1 - a)).map ipv4ToStr)) ∧
      (b < a → a < 4294967296 →
        expand_targets [ipv4ToStr a ++ '-' :: ipv4ToStr b] =
          Except.error PyErr.rangeValueError) ∧
      (a ≤ b → b = 4294967295 →
        expand_targets [ipv4ToStr a ++ '-' :: ipv4ToStr b] =
          Except.error PyErr.addressValueError) ∧
      (∀ ts1 ts2 xs ys, expand_targets ts1 = Except.ok xs →
        expand_targets ts2 = Except.ok ys →
        expand_targets (ts1 ++ ts2) = Except.ok (xs ++ ys)) ∧
      (a < 4294967296 →
        expand_targets [ipv4ToStr a, ipv4ToStr a] =
          Except.ok [ipv4ToStr a, ipv4ToStr a]) := by
  intro a b
  have hstrip : pyStrip (ipv4ToStr a ++ '-' :: ipv4ToStr b) =
      ipv4ToStr a ++ '-' :: ipv4ToStr b := by
    apply pyStrip_all_not
    rw [List.all_append, List.all_cons]
    rw [ipv4ToStr_no_space a, ipv4ToStr_no_space b]
    decide
  have hguard : hasSub (ipv4ToStr a ++ '-' :: ipv4ToStr b) ['-'] = true :=
    hasSub_singleton '-' _ _
  have hstarts : listStarts (ipv4ToStr a ++ '-' :: ipv4ToStr b) ['-'] = false := by
    obtain ⟨c, rest, hc, hdig⟩ := ipv4ToStr_head a
    rw [hc, List.cons_append]
    simp [listStarts, isDigit_ne_dash c hdig]
  have hbreak : breakAt '-' (ipv4ToStr a ++ '-' :: ipv4ToStr b) =
      (ipv4ToStr a, ipv4ToStr b) :=
    breakAt_append '-' _ _ (ipv4ToStr_no_dash a)
  refine ⟨?_, ?_, ?_, ?_, ?_⟩
  · intro hab hb
    have ha : a < 4294967296 := by omega
    simp only [expand_targets, hstrip, hguard, hstarts, Bool.not_false,
      Bool.and_true, if_true, hbreak, pyStrip_ipv4,
      parseIPv4_ipv4ToStr a ha, parseIPv4_ipv4ToStr b (by omega)]
    have : ¬ b < a := by omega
    simp only [this, if_false]
    rw [ipRangeStrs, ipRangeGo_ok (b + 1 - a) a (by omega)]
    simp [expand_targets]
  · intro hba ha
    simp only [expand_targets, hstrip, hguard, hstarts, Bool.not_false,
      Bool.and_true, if_true, hbreak, pyStrip_ipv4,
      parseIPv4_ipv4ToStr a ha, parseIPv4_ipv4ToStr b (by omega)]
    simp [hba]
  · intro hab hb
    have ha : a < 4294967296 := by omega
    simp only [expand_targets, hstrip, hguard, hstarts, Bool.not_false,
      Bool.and_true, if_true, hbreak, pyStrip_ipv4,
      parseIPv4_ipv4ToStr a ha, parseIPv4_ipv4ToStr b (by omega)]
    have : ¬ b < a := by omega
    simp only [this, if_false]
    rw [ipRangeStrs, ipRangeGo_overflow (b + 1 - a) a (by omega) (by omega)]
  · intro ts1
    induction ts1 with
    | nil =>
      intro ts2 xs ys h1 h2
      rw [show expand_targets [] = Except.ok [] from rfl] at h1
      cases h1
      simpa using h2
    | cons e rest ih =>
      intro ts2 xs ys h1 h2
      rw [List.cons_append]
      rw [expand_targets] at h1 ⊢
      by_cases hg : (hasSub (pyStrip e) ['-'] && !listStarts (pyStrip e) ['-']) = true
      · rw [if_pos hg] at h1 ⊢
        cases hp1 : parseIPv4 (pyStrip (breakAt '-' (pyStrip e)).1) with
        | none => rw [hp1] at h1; simp at h1
        | some av =>
          rw [hp1] at h1
          dsimp only at h1 ⊢
          cases hp2 : parseIPv4 (pyStrip (breakAt '-' (pyStrip e)).2) with
          | none => rw [hp2] at h1; simp at h1
          | some bv =>
            rw [hp2] at h1
            dsimp only at h1 ⊢
            by_cases hba : bv < av
            · rw [if_pos hba] at h1; simp at h1
            · rw [if_neg hba] at h1 ⊢
              cases hr : ipRangeStrs av bv with
              | error e2 => rw [hr] at h1; simp at h1
              | ok zs =>
                rw [hr] at h1
                dsimp only at h1 ⊢
                cases hrest : expand_targets rest with
                | error e2 => rw [hrest] at h1; simp at h1
                | ok ws =>
                  rw [hrest] at h1
                  dsimp only at h1
                  cases h1
                  rw [ih ts2 ws ys hrest h2]
                  simp
      · rw [if_neg hg] at h1 ⊢
        cases hp : parseIPv4 (pyStrip e) with
        | none => rw [hp] at h1; simp at h1
        | some av =>
          rw [hp] at h1
          dsimp only at h1 ⊢
          cases hrest : expand_targets rest with
          | error e2 => rw [hrest] at h1; simp at h1
          | ok ws =>
            rw [hrest] at h1
            dsimp only at h1
            cases h1
            rw [ih ts2 ws ys hrest h2]
            rfl
  · intro ha
    have hnd : hasSub (ipv4ToStr a) ['-'] = false :=
      hasSub_singleton_not '-' _ (ipv4ToStr_no_dash a)
    simp [expand_targets, pyStrip_ipv4, hnd, parseIPv4_ipv4ToStr a ha]

/-- Witness for C7 at the concrete range `192.168.1.10-192.168.1.12` and the
duplicate literal `10.0.0.5`. -/
theorem C7_range_expansion_witness :
    expand_targets ["192.168.1.10-192.168.1.12".data] =
      Except.ok ["192.168.1.10".data, "192.168.1.11".data, "192.168.1.12".data] ∧
    expand_targets ["10.0.0.5".data, "10.0.0.5".data] =
      Except.ok ["10.0.0.5".data, "10.0.0.5".data] :=
  ⟨(C7_range_expansion 3232235786 3232235788).1 (by norm_num) (by norm_num),
   (C7_range_expansion 167772165 167772165).2.2.2.2 (by norm_num)⟩

/-- Counterexample to C7 as stated: the valid ascending range ending at
`255.255.255.255` does not expand to its inclusive sequence — the increment
past the maximum address raises `AddressValueError` instead. -/
theorem C7_range_expansion_counterexample :
    expand_targets ["255.255.255.254-255.255.255.255".data] =
      Except.error PyErr.addressValueError ∧
    expand_targets ["255.255.255.254-255.255.255.255".data] ≠
      Except.ok ["255.255.255.254".data, "255.255.255.255".data] := by
  constructor
  · rfl
  · intro h
    rw [show expand_targets ["255.255.255.254-255.255.255.255".data] =
      Except.error PyErr.addressValueError from rfl] at h
    exact Except.noConfusion h

/-- Unfolding `requestGo`: the budget is exhausted. -/
theorem requestGo_stop (transport : Nat → Except Nat Response)
    (retries attempt : Nat) (last : Option Nat)
    (h : retries + 1 ≤ attempt) :
    requestGo transport retries attempt last =
      (Except.error (PyErr.connectionFailed last), [], 0) := by
  rw [requestGo]; simp [h]

/-- Unfolding `requestGo`: the current attempt succeeds. -/
theorem requestGo_step_ok (transport : Nat → Except Nat Response)
    (retries attempt : Nat) (last : Option Nat) (r : Response)
    (h : ¬ retries + 1 ≤ attempt) (ht : transport (attempt - 1) = Except.ok r) :
    requestGo transport retries attempt last = (Except.ok r, [], 1) := by
  rw [requestGo]; simp [h, ht]

/-- Unfolding `requestGo`: the current attempt fails and a retry remains, so
the loop sleeps `2 ^ attempt` and retries. -/
theorem requestGo_step_err_lt (transport : Nat → Except Nat Response)
    (retries attempt : Nat) (last : Option Nat) (e : Nat)
    (h : ¬ retries + 1 ≤ attempt) (hlt : attempt < retries)
    (ht : transport (attempt - 1) = Except.error e) :
    requestGo transport retries attempt last =
      ((requestGo transport retries (attempt + 1) (some e)).1,
       2 ^ attempt :: (requestGo transport retries (attempt + 1) (some e)).2.1,
       (requestGo transport retries (attempt + 1) (some e)).2.2 + 1) := by
  rw [requestGo]; simp [h, ht, hlt]

/-- Unfolding `requestGo`: the last attempt of the budget fails (no sleep). -/
theorem requestGo_step_err_last (transport : Nat → Except Nat Response)
    (retries attempt : Nat) (last : Option Nat) (e : Nat)
    (h : ¬ retries + 1 ≤ attempt) (hlt : ¬ attempt < retries)
    (ht : transport (attempt - 1) = Except.error e) :
    requestGo transport retries attempt last =
      ((requestGo transport retries (attempt + 1) (some e)).1,
       (requestGo transport retries (attempt + 1) (some e)).2.1,
       (requestGo transport retries (attempt + 1) (some e)).2.2 + 1) := by
  rw [requestGo]; simp [h, ht, hlt]

/-- The transport call count of `_request` is bounded by the remaining
attempt budget. -/
theorem requestGo_calls_le (k : Nat) :
    ∀ (transport : Nat → Except Nat Response) (retries attempt : Nat)
      (last : Option Nat), retries + 1 - attempt ≤ k →
      (requestGo transport retries attempt last).2.2 ≤ retries + 1 - attempt := by
  induction k with
  | zero =>
    intro transport retries attempt last hk
    rw [requestGo_stop transport retries attempt last (by omega)]
    simp
  | succ k ih =>
    intro transport retries attempt last hk
    by_cases hstop : retries + 1 ≤ attempt
    · rw [requestGo_stop transport retries attempt last hstop]
      simp
    · cases ht : transport (attempt - 1) with
      | ok resp =>
        rw [requestGo_step_ok transport retries attempt last resp hstop ht]
        simp; omega
      | error exc =>
        have hrec := ih transport retries (attempt + 1) (some exc) (by omega)
        by_cases hlt : attempt < retries
        · rw [requestGo_step_err_lt transport retries attempt last exc hstop hlt ht]
          simp only []
          omega
        · rw [requestGo_step_err_last transport retries attempt last exc hstop hlt ht]
          simp only []
          omega

/-- When every transport attempt fails, `_request` walks the whole budget,
sleeping `2 ^ attempt` between consecutive attempts, and raises
`ConnectionError` carrying the cause of the last attempt. -/
theorem requestGo_allFail (transport : Nat → Except Nat Response)
    (es : Nat → Nat) (retries : Nat) :
    ∀ (k attempt : Nat) (last : Option Nat),
      retries + 1 - attempt ≤ k →
      1 ≤ attempt → attempt ≤ retries →
      (∀ i, attempt - 1 ≤ i → i < retries → transport i = Except.error (es i)) →
      requestGo transport retries attempt last =
        (Except.error (PyErr.connectionFailed (some (es (retries - 1)))),
         (List.range' attempt (retries - attempt)).map (fun i => 2 ^ i),
         retries + 1 - attempt) := by
  intro k
  induction k with
  | zero => intro attempt last hk h1 h2 _; omega
  | succ k ih =>
    intro attempt last hk h1 h2 htr
    have hna : ¬ (retries + 1 ≤ attempt) := by omega
    have ht : transport (attempt - 1) = Except.error (es (attempt - 1)) :=
      htr (attempt - 1) (Nat.le_refl _) (by omega)
    by_cases hlt : attempt < retries
    · rw [requestGo_step_err_lt transport retries attempt last _ hna hlt ht]
      rw [ih (attempt + 1) (some (es (attempt - 1))) (by omega) (by omega) (by omega)
        (fun i hi1 hi2 => htr i (by omega) hi2)]
      have hr : retries - attempt = (retries - (attempt + 1)) + 1 := by omega
      rw [hr, List.range'_succ]
      simp only [List.map_cons]
      refine congrArg _ (congrArg _ ?_)
      omega
    · have heq : attempt = retries := by omega
      subst heq
      rw [requestGo_step_err_last transport attempt attempt last _ hna hlt ht]
      rw [requestGo_stop transport attempt (attempt + 1) _ (by omega)]
      have hz : attempt - attempt = 0 := by omega
      rw [hz]
      simp only [List.range', List.map_nil]
      refine congrArg _ (congrArg _ ?_)
      omega

/-- C6: on transport-level connection failure `_request` makes at most
`retries` transport attempts, sleeping `2 ^ attempt` seconds before each
retry; after exhausting the budget it raises `ConnectionError` carrying the
last underlying cause; and with `retries = 3` and a transport failing twice
then succeeding, the call succeeds after back-off delays of 2 s and 4 s. -/
theorem C6_transport_retry :
    ∀ (transport : Nat → Except Nat Response) (retries : Nat) (es : Nat → Nat),
      (pyRequest transport retries).2.2 ≤ retries ∧
      (1 ≤ retries →
        (∀ i, i < retries → transport i = Except.error (es i)) →
        pyRequest transport retries =
          (Except.error (PyErr.connectionFailed (some (es (retries - 1)))),
           (List.range' 1 (retries - 1)).map (fun i => 2 ^ i), retries)) ∧
      (∀ r : Response, transport 0 = Except.error (es 0) →
        transport 1 = Except.error (es 1) → transport 2 = Except.ok r →
        pyRequest transport 3 = (Except.ok r, [2, 4], 3)) := by
  intro transport retries es
  refine ⟨?_, ?_, ?_⟩
  · have h := requestGo_calls_le (retries + 1) transport retries 1 none (by omega)
    simpa [pyRequest] using h
  · intro hr htr
    have h := requestGo_allFail transport es retries (retries + 1) 1 none
      (by omega) (Nat.le_refl _) hr (fun i _ hi2 => htr i hi2)
    rw [pyRequest, h]
    refine congrArg _ (congrArg _ ?_)
    omega
  · intro r h0 h1 h2
    rw [pyRequest]
    rw [requestGo_step_err_lt transport 3 1 none (es 0) (by omega) (by omega) h0]
    rw [requestGo_step_err_lt transport 3 2 (some (es 0)) (es 1) (by omega) (by omega) h1]
    rw [requestGo_step_ok transport 3 3 (some (es 1)) r (by omega) h2]
    norm_num

/-- Witness for C6: the two-failures-then-success scenario at `retries = 3`
evaluates to a success with back-off delays `[2, 4]` and three transport
calls. -/
theorem C6_transport_retry_witness :
    pyRequest tFail2 3 = (Except.ok respAccepted, [2, 4], 3) :=
  (C6_transport_retry tFail2 3 (fun i => 7 + i)).2.2 respAccepted rfl rfl rfl

/-- A readable response makes the logged-message expression succeed. -/
theorem messagesReadable_ok {d : Json} (h : messagesReadable d = true) :
    firstMessageRead d = Except.ok () := by
  unfold messagesReadable at h
  cases hf : firstMessageRead d with
  | ok u => cases u; rfl
  | error e => rw [hf] at h; simp at h

/-- Unfolding `pollGo`: the timeout is exceeded before the next request. -/
theorem pollGo_timeout_step (w : World) (jobId : List Char)
    (interval timeout : Nat) (hpos : 0 < interval) (n : Nat)
    (h : timeout < n * interval) :
    pollGo w jobId interval timeout hpos n = (Except.error PyErr.jobTimeout, 0) := by
  rw [pollGo]; simp [h]

/-- Unfolding `pollGo`: the status request itself raises. -/
theorem pollGo_task_err (w : World) (jobId : List Char)
    (interval timeout : Nat) (hpos : 0 < interval) (n : Nat) (e : PyErr)
    (h : ¬ timeout < n * interval) (ht : w.task jobId n = Except.error e) :
    pollGo w jobId interval timeout hpos n = (Except.error e, 1) := by
  rw [pollGo]; simp [h, ht]

/-- Unfolding `pollGo`: the logged-message expression raises. -/
theorem pollGo_msg_err (w : World) (jobId : List Char)
    (interval timeout : Nat) (hpos : 0 < interval) (n : Nat)
    (resp : Response) (e : PyErr)
    (h : ¬ timeout < n * interval) (ht : w.task jobId n = Except.ok resp)
    (hm : firstMessageRead resp.jsonBody = Except.error e) :
    pollGo w jobId interval timeout hpos n = (Except.error e, 1) := by
  rw [pollGo]; simp [h, ht, hm]

/-- Unfolding `pollGo`: a terminal state returns the full body. -/
theorem pollGo_terminal_step (w : World) (jobId : List Char)
    (interval timeout : Nat) (hpos : 0 < interval) (n : Nat) (resp : Response)
    (h : ¬ timeout < n * interval) (ht : w.task jobId n = Except.ok resp)
    (hm : messagesReadable resp.jsonBody = true)
    (hterm : isTerminalTaskState (taskStateOf resp.jsonBody) = true) :
    pollGo w jobId interval timeout hpos n = (Except.ok resp.jsonBody, 1) := by
  rw [pollGo]; simp [h, ht, messagesReadable_ok hm, hterm]

/-- Unfolding `pollGo`: a non-terminal state sleeps and re-polls. -/
theorem pollGo_nonterminal_step (w : World) (jobId : List Char)
    (interval timeout : Nat) (hpos : 0 < interval) (n : Nat) (resp : Response)
    (h : ¬ timeout < n * interval) (ht : w.task jobId n = Except.ok resp)
    (hm : messagesReadable resp.jsonBody = true)
    (hterm : isTerminalTaskState (taskStateOf resp.jsonBody) = false) :
    pollGo w jobId interval timeout hpos n =
      ((pollGo w jobId interval timeout hpos (n + 1)).1,
       (pollGo w jobId interval timeout hpos (n + 1)).2 + 1) := by
  rw [pollGo]; simp [h, ht, messagesReadable_ok hm, hterm]

/-- From iteration `n`, with `k` readable non-terminal responses followed by
a readable terminal one inside the time budget, the loop returns the
terminal body after exactly `k + 1` requests. -/
theorem pollGo_counts (w : World) (jobId : List Char)
    (interval timeout : Nat) (hpos : 0 < interval) (resps : Nat → Response) :
    ∀ (k n : Nat),
      (∀ i, i < k → w.task jobId (n + i) = Except.ok (resps (n + i)) ∧
        messagesReadable (resps (n + i)).jsonBody = true ∧
        isTerminalTaskState (taskStateOf (resps (n + i)).jsonBody) = false) →
      w.task jobId (n + k) = Except.ok (resps (n + k)) →
      messagesReadable (resps (n + k)).jsonBody = true →
      isTerminalTaskState (taskStateOf (resps (n + k)).jsonBody) = true →
      (n + k) * interval ≤ timeout →
      pollGo w jobId interval timeout hpos n =
        (Except.ok (resps (n + k)).jsonBody, k + 1) := by
  intro k
  induction k with
  | zero =>
    intro n _ ht hm hterm htime
    have hnt : ¬ timeout < n * interval := by
      simp only [Nat.add_zero] at htime; omega
    simpa using pollGo_terminal_step w jobId interval timeout hpos n _ hnt
      (by simpa using ht) (by simpa using hm) (by simpa using hterm)
  | succ k ih =>
    intro n hpre ht hm hterm htime
    have h0 := hpre 0 (Nat.succ_pos k)
    rw [Nat.add_zero] at h0
    have hnt : ¬ timeout < n * interval := by
      have hmono : n * interval ≤ (n + (k + 1)) * interval :=
        Nat.mul_le_mul_right _ (by omega)
      omega
    rw [pollGo_nonterminal_step w jobId interval timeout hpos n _ hnt h0.1
      h0.2.1 h0.2.2]
    have hrec := ih (n + 1)
      (fun i hi => by
        have := hpre (i + 1) (by omega)
        rwa [show n + (i + 1) = n + 1 + i by omega] at this)
      (by rwa [show n + 1 + k = n + (k + 1) by omega])
      (by rwa [show n + 1 + k = n + (k + 1) by omega])
      (by rwa [show n + 1 + k = n + (k + 1) by omega])
      (by rwa [show n + 1 + k = n + (k + 1) by omega])
    rw [hrec]
    rw [show n + 1 + k = n + (k + 1) by omega]

/-- From iteration `n`, when every response inside the time budget is
readable and non-terminal, the loop abandons with `TimeoutError` after
polling exactly once per interval slot inside the budget and never after
exceeding it. -/
theorem pollGo_timeout_all (w : World) (jobId : List Char)
    (interval timeout : Nat) (hpos : 0 < interval) (resps : Nat → Response) :
    ∀ (k n : Nat), timeout + 1 - n * interval ≤ k →
      (∀ m, n ≤ m → m * interval ≤ timeout →
        w.task jobId m = Except.ok (resps m) ∧
        messagesReadable (resps m).jsonBody = true ∧
        isTerminalTaskState (taskStateOf (resps m).jsonBody) = false) →
      pollGo w jobId interval timeout hpos n =
        (Except.error PyErr.jobTimeout, timeout / interval + 1 - n) := by
  intro k
  induction k with
  | zero =>
    intro n hk _
    have hover : timeout < n * interval := by omega
    have hdiv : timeout / interval < n := (Nat.div_lt_iff_lt_mul hpos).mpr hover
    rw [pollGo_timeout_step w jobId interval timeout hpos n hover]
    congr 1
    omega
  | succ k ih =>
    intro n hk hall
    by_cases hover : timeout < n * interval
    · have hdiv : timeout / interval < n := (Nat.div_lt_iff_lt_mul hpos).mpr hover
      rw [pollGo_timeout_step w jobId interval timeout hpos n hover]
      congr 1
      omega
    · have h0 := hall n (Nat.le_refl _) (by omega)
      rw [pollGo_nonterminal_step w jobId interval timeout hpos n _ hover h0.1
        h0.2.1 h0.2.2]
      have hsm : (n + 1) * interval = n * interval + interval := Nat.succ_mul ..
      rw [ih (n + 1) (by omega) (fun m hm1 hm2 => hall m (by omega) hm2)]
      have hle : n ≤ timeout / interval := (Nat.le_div_iff_mul_le hpos).mpr (by omega)
      have hdiv2 : timeout / interval < n + 1 ∨ n + 1 ≤ timeout / interval := by omega
      simp only []
      congr 1
      omega

/-- The loop only ever returns successfully on a terminal state. -/
theorem pollGo_sound (w : World) (jobId : List Char)
    (interval timeout : Nat) (hpos : 0 < interval) :
    ∀ (k n : Nat) (d : Json) (c : Nat), timeout + 1 - n * interval ≤ k →
      pollGo w jobId interval timeout hpos n = (Except.ok d, c) →
      isTerminalTaskState (taskStateOf d) = true := by
  intro k
  induction k with
  | zero =>
    intro n d c hk h
    have hover : timeout < n * interval := by omega
    rw [pollGo_timeout_step w jobId interval timeout hpos n hover] at h
    exact absurd (congrArg Prod.fst h) (by simp)
  | succ k ih =>
    intro n d c hk h
    by_cases hover : timeout < n * interval
    · rw [pollGo_timeout_step w jobId interval timeout hpos n hover] at h
      exact absurd (congrArg Prod.fst h) (by simp)
    · cases ht : w.task jobId n with
      | error e =>
        rw [pollGo_task_err w jobId interval timeout hpos n e hover ht] at h
        exact absurd (congrArg Prod.fst h) (by simp)
      | ok resp =>
        cases hm : firstMessageRead resp.jsonBody with
        | error e =>
          rw [pollGo_msg_err w jobId interval timeout hpos n resp e hover ht hm] at h
          exact absurd (congrArg Prod.fst h) (by simp)
        | ok u =>
          have hmr : messagesReadable resp.jsonBody = true := by
            unfold messagesReadable; rw [hm]
          cases hterm : isTerminalTaskState (taskStateOf resp.jsonBody) with
          | true =>
            rw [pollGo_terminal_step w jobId interval timeout hpos n resp hover
              ht hmr hterm] at h
            have := congrArg Prod.fst h
            simp only [Except.ok.injEq] at this
            rwa [← this]
          | false =>
            rw [pollGo_nonterminal_step w jobId interval timeout hpos n resp
              hover ht hmr hterm] at h
            have hsm : (n + 1) * interval = n * interval + interval := Nat.succ_mul ..
            have h1 : (pollGo w jobId interval timeout hpos (n + 1)).1 =
                Except.ok d := congrArg Prod.fst h
            exact ih (n + 1) d (pollGo w jobId interval timeout hpos (n + 1)).2
              (by omega) (Prod.ext h1 rfl)

/-- C5 (amended): provided every polled response's `Messages` field, when
present, is a nonempty array headed by an object (`poll_job` indexes
`Messages[0]` for logging and raises `IndexError`/`AttributeError`
otherwise), `poll_job` returns only when the observed `TaskState` is in the
terminal set, returning the full final task body; if elapsed time exceeds
the timeout before a terminal state it raises `TimeoutError` without
issuing a further status request (one request per interval slot inside the
budget); and an endpoint reporting non-terminal states for `k` polls then a
terminal one (inside the budget) receives exactly `k + 1` status requests. -/
theorem C5_poll_job_terminal (w : World) (jobId : List Char)
    (interval timeout : Nat) (hpos : 0 < interval) (resps : Nat → Response) :
    (∀ (d : Json) (c : Nat),
      poll_job w jobId interval timeout hpos = (Except.ok d, c) →
      isTerminalTaskState (taskStateOf d) = true) ∧
    (∀ k : Nat,
      (∀ i, i < k → w.task jobId i = Except.ok (resps i) ∧
        messagesReadable (resps i).jsonBody = true ∧
        isTerminalTaskState (taskStateOf (resps i).jsonBody) = false) →
      w.task jobId k = Except.ok (resps k) →
      messagesReadable (resps k).jsonBody = true →
      isTerminalTaskState (taskStateOf (resps k).jsonBody) = true →
      k * interval ≤ timeout →
      poll_job w jobId interval timeout hpos = (Except.ok (resps k).jsonBody, k + 1)) ∧
    ((∀ m, m * interval ≤ timeout →
        w.task jobId m = Except.ok (resps m) ∧
        messagesReadable (resps m).jsonBody = true ∧
        isTerminalTaskState (taskStateOf (resps m).jsonBody) = false) →
      poll_job w jobId interval timeout hpos =
        (Except.error PyErr.jobTimeout, timeout / interval + 1)) := by
  refine ⟨?_, ?_, ?_⟩
  · intro d c h
    exact pollGo_sound w jobId interval timeout hpos (timeout + 1) 0 d c
      (by simp) h
  · intro k hpre ht hm hterm htime
    have h := pollGo_counts w jobId interval timeout hpos resps k 0
      (fun i hi => by simpa using hpre i hi)
      (by simpa using ht) (by simpa using hm) (by simpa using hterm)
      (by simpa using htime)
    simpa [poll_job] using h
  · intro hall
    have h := pollGo_timeout_all w jobId interval timeout hpos resps
      (timeout + 1) 0 (by simp)
      (fun m _ hm2 => hall m hm2)
    simpa [poll_job] using h

/-- Witness for C5: against the always-`Completed` endpoint the poller
returns the body after one request; against the always-`Running` endpoint
with interval 15 s and timeout 1800 s it times out after 121 requests. -/
theorem C5_poll_job_terminal_witness :
    poll_job wGood ("JID_123".data) 15 1800 (by decide) = (Except.ok tdCompleted, 1) ∧
    poll_job wRunning ("JID_123".data) 15 1800 (by decide) =
      (Except.error PyErr.jobTimeout, 121) :=
  ⟨(C5_poll_job_terminal wGood ("JID_123".data) 15 1800 (by decide)
      (fun _ => pollResp tdCompleted)).2.1 0
      (fun i hi => absurd hi (by omega)) rfl (by decide) (by decide) (by decide),
   (C5_poll_job_terminal wRunning ("JID_123".data) 15 1800 (by decide)
      (fun _ => pollResp tdRunning)).2.2
      (fun m _ => ⟨rfl, by decide, by decide⟩)⟩

/-- Counterexample to C5 as stated: a first poll reporting the terminal
state `Completed` but an empty `Messages` array makes `poll_job` raise
`IndexError` (from `Messages[0]`) instead of returning the final task
state. -/
theorem C5_poll_job_terminal_counterexample :
    poll_job wEmptyMsgs ("JID_123".data) 15 1800 (by decide) =
      (Except.error PyErr.indexError, 1) ∧
    poll_job wEmptyMsgs ("JID_123".data) 15 1800 (by decide) ≠
      (Except.ok tdEmptyMessages, 1) := by
  have h : poll_job wEmptyMsgs ("JID_123".data) 15 1800 (by decide) =
      (Except.error PyErr.indexError, 1) := by
    unfold poll_job
    exact pollGo_msg_err wEmptyMsgs ("JID_123".data) 15 1800 (by decide) 0
      (pollResp tdEmptyMessages) PyErr.indexError (by decide) rfl rfl
  refine ⟨h, ?_⟩
  rw [h]
  intro hc
  exact absurd (congrArg Prod.fst hc) (by simp)

/-- C9: on a 200 probe response, generation classification of the model
string yields one of exactly three buckets by substring matching: a model
containing `"12"` or `"13"` classifies as generation 8; otherwise one
containing `"14"`, `"15"` or `"16"` classifies as generation 9; any other
model string (including the empty default used when `Model` is missing)
falls to the newest bucket, generation 10 — and an uncached `initialize`
on a 200 response caches and returns exactly this classification. -/
theorem C9_generation_buckets :
    ∀ (m : List Char),
      ((hasSub m ("12".data) || hasSub m ("13".data)) = true → classifyGen m = 8) ∧
      ((hasSub m ("12".data) || hasSub m ("13".data)) = false →
        (hasSub m ("14".data) || hasSub m ("15".data) || hasSub m ("16".data)) = true →
        classifyGen m = 9) ∧
      ((hasSub m ("12".data) || hasSub m ("13".data)) = false →
        (hasSub m ("14".data) || hasSub m ("15".data) || hasSub m ("16".data)) = false →
        classifyGen m = 10) ∧
      (∀ (s : IdracSession) (w : World) (resp : Response),
        s.idrac_version = none → w.managers = Except.ok resp →
        resp.status_code = 200 →
        jGetD resp.jsonBody ("Model".data) (Json.str []) = Json.str m →
        (initSession s w).1 =
          Except.ok (classifyGen m, { s with idrac_version := some (classifyGen m) })) := by
  intro m
  refine ⟨?_, ?_, ?_, ?_⟩
  · intro h; simp [classifyGen, h]
  · intro h1 h2; simp [classifyGen, h1, h2]
  · intro h1 h2; simp [classifyGen, h1, h2]
  · intro s w resp hv hw hst hm
    simp [initSession, hv, hw, hst, hm]

/-- Witness for C9 at three concrete model strings. -/
theorem C9_generation_buckets_witness :
    classifyGen ("PowerEdge 13G".data) = 8 ∧
    classifyGen ("PE 14G".data) = 9 ∧
    classifyGen ("Integrated iDRAC".data) = 10 :=
  ⟨(C9_generation_buckets _).1 (by decide),
   (C9_generation_buckets _).2.1 (by decide) (by decide),
   (C9_generation_buckets _).2.2.1 (by decide) (by decide)⟩

/-- A successful `initialize` leaves the detected generation cached, and an
uncached success issues exactly one probe request. -/
theorem initSession_ok_state (s : IdracSession) (w : World) (v : Nat)
    (s2 : IdracSession) (n : Nat)
    (h : initSession s w = (Except.ok (v, s2), n)) :
    s2.idrac_version = some v ∧ (s.idrac_version = none → n = 1) := by
  cases hsv : s.idrac_version with
    | some v0 =>
      simp only [initSession, hsv] at h
      obtain ⟨h1, h2⟩ := Prod.mk.injEq .. ▸ h
      cases h1; cases Prod.mk.injEq .. ▸ h
      simp_all
    | none =>
      simp only [initSession, hsv] at h
      cases hw : w.managers with
      | error e => rw [hw] at h; simp at h
      | ok resp =>
        rw [hw] at h
        by_cases h401 : resp.status_code = 401
        · simp [h401] at h
        · by_cases h200 : resp.status_code = 200
          · simp only [h401, if_false, h200] at h
            cases hjm : jGetD resp.jsonBody ("Model".data) (Json.str []) with
            | str model =>
              rw [hjm] at h
              simp only [Prod.mk.injEq, Except.ok.injEq] at h
              obtain ⟨⟨hcv, hs2⟩, hn⟩ := h
              exact ⟨rfl, fun _ => rfl⟩
            | null => rw [hjm] at h; simp at h
            | bool b => rw [hjm] at h; simp at h
            | num k => rw [hjm] at h; simp at h
            | arr xs => rw [hjm] at h; simp at h
            | obj kvs => rw [hjm] at h; simp at h
          · simp [h401, h200] at h

/-- A session whose generation is cached resolves `oem_action_uri` without
any network activity. -/
theorem oem_action_uri_cached (s : IdracSession) (w : World) (act : List Char)
    (v : Nat) (h : s.idrac_version = some v) :
    oem_action_uri s w act = (Except.ok (oemUriFor v act, s), 0) := by
  simp [oem_action_uri, h]

/-- C8: generation detection is idempotent.  Once `initialize` has succeeded
on a session, every later `initialize` (with any network environment) and
every `oem_action_uri` call returns the cached generation with zero further
requests, and the successful uncached detection itself issued exactly one
probe — so invoking detection twice performs exactly one request. -/
theorem C8_detection_idempotent :
    ∀ (s : IdracSession) (w : World) (v : Nat) (s2 : IdracSession) (n : Nat),
      initSession s w = (Except.ok (v, s2), n) →
      (∀ w2 : World, initSession s2 w2 = (Except.ok (v, s2), 0)) ∧
      (∀ (w2 : World) (act : List Char),
        oem_action_uri s2 w2 act = (Except.ok (oemUriFor v act, s2), 0)) ∧
      (s.idrac_version = none → n = 1) := by
  intro s w v s2 n h
  have hv := initSession_ok_state s w v s2 n h
  refine ⟨?_, ?_, hv.2⟩
  · intro w2; simp [initSession, hv.1]
  · intro w2 act; exact oem_action_uri_cached s2 w2 act v hv.1

/-- Witness for C8: one concrete detection, then a cached re-detection and a
cached `oem_action_uri`, with request counts 1 and 0. -/
theorem C8_detection_idempotent_witness :
    initSession sTest wGood = (Except.ok (9, sTest9), 1) ∧
    initSession sTest9 wGood = (Except.ok (9, sTest9), 0) ∧
    oem_action_uri sTest9 wGood ("ExportSystemConfiguration".data) =
      (Except.ok (oemUriFor 9 ("ExportSystemConfiguration".data), sTest9), 0) := by
  have h1 : initSession sTest wGood = (Except.ok (9, sTest9), 1) := by rfl
  exact ⟨h1, (C8_detection_idempotent sTest wGood 9 sTest9 1 h1).1 wGood,
    (C8_detection_idempotent sTest wGood 9 sTest9 1 h1).2.1 wGood _⟩

/-- The structured-field loop is the first `Oem.Dell.ServerConfigurationProfile`
hit (re-serialized for JSON format), provided every message is well-shaped. -/
theorem extractLoop1_eq (fmt : List Char) :
    ∀ msgs : List Json, msgs.all msgDellWF = true →
      extractLoop1 fmt msgs = Except.ok ((findDellValue msgs).map
        (fun v => if pyUpper fmt = "JSON".data then Json.str (jsonDumpsIndent v 2)
          else v)) := by
  intro msgs
  induction msgs with
  | nil => intro _; rfl
  | cons msg rest ih =>
    intro h
    rw [List.all_cons, Bool.and_eq_true] at h
    obtain ⟨h1, h2⟩ := h
    cases msg with
    | obj kvs =>
      cases ho : (jLookup ("Oem".data) kvs).getD (Json.obj []) with
      | obj okvs =>
        cases hd : (jLookup ("Dell".data) okvs).getD (Json.obj []) with
        | obj dkvs =>
          cases hscp : jLookup ("ServerConfigurationProfile".data) dkvs with
          | some v =>
            simp only [extractLoop1, ho, hd, hscp, findDellValue,
              List.findSome?_cons, dellFieldOf]
            by_cases hj : pyUpper fmt = "JSON".data
            · simp [hj]
            · simp [hj]
          | none =>
            simp only [extractLoop1, ho, hd, hscp, findDellValue,
              List.findSome?_cons, dellFieldOf]
            exact ih h2
        | null => simp [msgDellWF, ho, hd] at h1
        | bool b => simp [msgDellWF, ho, hd] at h1
        | num k => simp [msgDellWF, ho, hd] at h1
        | str t => simp [msgDellWF, ho, hd] at h1
        | arr xs => simp [msgDellWF, ho, hd] at h1
      | null => simp [msgDellWF, ho] at h1
      | bool b => simp [msgDellWF, ho] at h1
      | num k => simp [msgDellWF, ho] at h1
      | str t => simp [msgDellWF, ho] at h1
      | arr xs => simp [msgDellWF, ho] at h1
    | null => simp [msgDellWF] at h1
    | bool b => simp [msgDellWF] at h1
    | num k => simp [msgDellWF] at h1
    | str t => simp [msgDellWF] at h1
    | arr xs => simp [msgDellWF] at h1

/-- The text-sniffing loop is the first message whose stripped text starts
with the format delimiter, provided every message is well-shaped. -/
theorem extractLoop2_eq (fmt : List Char) :
    ∀ msgs : List Json, msgs.all msgTextWF = true →
      extractLoop2 fmt msgs = Except.ok (findDelimMsg fmt msgs) := by
  intro msgs
  induction msgs with
  | nil => intro _; rfl
  | cons msg rest ih =>
    intro h
    rw [List.all_cons, Bool.and_eq_true] at h
    obtain ⟨h1, h2⟩ := h
    cases msg with
    | obj kvs =>
      cases hm : (jLookup ("Message".data) kvs).getD (Json.str []) with
      | str content =>
        by_cases hfmt : (pyUpper fmt = "XML".data ∨ pyUpper fmt = "JSON".data)
        · have hfmtb : (pyUpper fmt = "XML".data || pyUpper fmt = "JSON".data) = true := by
            rcases hfmt with hx | hj
            · simp [hx]
            · simp [hj]
          by_cases hx : pyUpper fmt = "XML".data ∧ listStarts (pyStrip content) ['<'] = true
          · simp only [extractLoop2, hm, hfmtb, findDelimMsg,
              List.findSome?_cons, delimMsgOf, hx.1, hx.2]
            simp [hx.1, hx.2]
          · by_cases hj : pyUpper fmt = "JSON".data ∧
              listStarts (pyStrip content) ['\x7b'] = true
            · have hxml_f : (pyUpper fmt = "XML".data &&
                  listStarts (pyStrip content) ['<']) = false := by
                rw [Bool.and_eq_false_iff]
                by_cases hfx : pyUpper fmt = "XML".data
                · right
                  rw [Bool.eq_false_iff]
                  intro hs
                  exact hx ⟨hfx, hs⟩
                · left; simp [hfx]
              simp only [extractLoop2, hm, hfmtb, findDelimMsg,
                List.findSome?_cons, delimMsgOf, hxml_f]
              simp [hj.1, hj.2]
            · have hxml_f : (pyUpper fmt = "XML".data &&
                  listStarts (pyStrip content) ['<']) = false := by
                rw [Bool.and_eq_false_iff]
                by_cases hfx : pyUpper fmt = "XML".data
                · right
                  rw [Bool.eq_false_iff]
                  intro hs
                  exact hx ⟨hfx, hs⟩
                · left; simp [hfx]
              have hjson_f : (pyUpper fmt = "JSON".data &&
                  listStarts (pyStrip content) ['\x7b']) = false := by
                rw [Bool.and_eq_false_iff]
                by_cases hfj : pyUpper fmt = "JSON".data
                · right
                  rw [Bool.eq_false_iff]
                  intro hs
                  exact hj ⟨hfj, hs⟩
                · left; simp [hfj]
              simp only [extractLoop2, hm, hfmtb, findDelimMsg,
                List.findSome?_cons, delimMsgOf, hxml_f, hjson_f]
              simp only [if_false, Bool.false_eq_true]
              exact ih h2
        · push_neg at hfmt
          have hfmtb : (pyUpper fmt = "XML".data || pyUpper fmt = "JSON".data) = false := by
            simp [hfmt.1, hfmt.2]
          have hxml_f : (pyUpper fmt = "XML".data &&
              listStarts (pyStrip content) ['<']) = false := by
            simp [hfmt.1]
          have hjson_f : (pyUpper fmt = "JSON".data &&
              listStarts (pyStrip content) ['\x7b']) = false := by
            simp [hfmt.2]
          simp only [extractLoop2, hm, hfmtb, findDelimMsg, List.findSome?_cons,
            delimMsgOf, hxml_f, hjson_f]
          simp only [if_false, Bool.false_eq_true]
          exact ih h2
      | null => simp [msgTextWF, hm] at h1
      | bool b => simp [msgTextWF, hm] at h1
      | num k => simp [msgTextWF, hm] at h1
      | arr xs => simp [msgTextWF, hm] at h1
      | obj kvs2 => simp [msgTextWF, hm] at h1
    | null => simp [msgTextWF] at h1
    | bool b => simp [msgTextWF] at h1
    | num k => simp [msgTextWF] at h1
    | str t => simp [msgTextWF] at h1
    | arr xs => simp [msgTextWF] at h1

/-- C4 (amended): over well-shaped messages, extraction tries three
strategies in order — the first vendor-namespaced
`Oem.Dell.ServerConfigurationProfile` value, which is returned exactly
as stored for XML format but re-serialized with `json.dumps(..., indent=2)`
(not unmodified) for JSON format; else the first message text that (after
stripping) starts with the format delimiter (`<` for XML, an opening brace
for JSON); else a regex scan of the raw serialized task state for a
`SystemConfiguration` element, attempted only for XML format (JSON falls
through to the empty string); and a `Completed` export job whose extraction
comes back empty makes `export_scp` raise the empty-payload error rather
than return. -/
theorem C4_scp_extraction :
    (∀ (td : Json) (fmt : List Char) (msgs : List Json),
      jGetD td ("Messages".data) (Json.arr []) = Json.arr msgs →
      msgs.all msgDellWF = true → msgs.all msgTextWF = true →
      (∀ v, findDellValue msgs = some v → pyUpper fmt = "XML".data →
        extract_scp_content td fmt = Except.ok v) ∧
      (∀ v, findDellValue msgs = some v → pyUpper fmt = "JSON".data →
        extract_scp_content td fmt = Except.ok (Json.str (jsonDumpsIndent v 2))) ∧
      (∀ m, findDellValue msgs = none → findDelimMsg fmt msgs = some m →
        extract_scp_content td fmt = Except.ok (Json.str m)) ∧
      (∀ mm, findDellValue msgs = none → findDelimMsg fmt msgs = none →
        pyUpper fmt = "XML".data → regexSysConfig (jsonDumps td) = some mm →
        extract_scp_content td fmt = Except.ok (Json.str mm)) ∧
      (findDellValue msgs = none → findDelimMsg fmt msgs = none →
        pyUpper fmt ≠ "XML".data →
        extract_scp_content td fmt = Except.ok (Json.str []))) ∧
    (∀ (s : IdracSession) (w : World) (target fmt includeOpt : List Char)
      (interval timeout : Nat) (hpos : 0 < interval) (gen n : Nat)
      (s2 : IdracSession) (resp : Response) (loc : List Char) (td2 content : Json),
      initSession s w = (Except.ok (gen, s2), n) →
      w.action (exportPayload fmt target includeOpt gen) = Except.ok resp →
      (resp.status_code = 200 ∨ resp.status_code = 202) →
      headerGetD resp ("Location".data) = loc → loc ≠ [] →
      (poll_job w (lastSegment loc) interval timeout hpos).1 = Except.ok td2 →
      jsonEqStr (taskStateOf td2) ("Completed".data) = true →
      extract_scp_content td2 fmt = Except.ok content →
      pyTruthy content = false →
      export_scp s w target fmt includeOpt interval timeout hpos =
        Except.error PyErr.exportEmptyPayload) := by
  constructor
  · intro td fmt msgs hmsgs hwf1 hwf2
    have hl1 := extractLoop1_eq fmt msgs hwf1
    have hl2 := extractLoop2_eq fmt msgs hwf2
    refine ⟨?_, ?_, ?_, ?_, ?_⟩
    · intro v hdell hxml
      have hnj : ¬ pyUpper fmt = "JSON".data := by rw [hxml]; decide
      unfold extract_scp_content
      rw [hmsgs]
      dsimp only
      rw [hl1, hdell]
      simp [hnj]
    · intro v hdell hjson
      unfold extract_scp_content
      rw [hmsgs]
      dsimp only
      rw [hl1, hdell]
      simp [hjson]
    · intro m hdell hdelim
      unfold extract_scp_content
      rw [hmsgs]
      dsimp only
      rw [hl1, hdell]
      dsimp only [Option.map_none']
      rw [hl2, hdelim]
    · intro mm hdell hdelim hxml hregex
      unfold extract_scp_content
      rw [hmsgs]
      dsimp only
      rw [hl1, hdell]
      dsimp only [Option.map_none']
      rw [hl2, hdelim]
      simp [hxml, hregex]
    · intro hdell hdelim hnx
      unfold extract_scp_content
      rw [hmsgs]
      dsimp only
      rw [hl1, hdell]
      dsimp only [Option.map_none']
      rw [hl2, hdelim]
      simp [hnx]
  · intro s w target fmt includeOpt interval timeout hpos gen n s2 resp loc
      td2 content hinit haction hstatus hloc hlocne hpoll hstate hextract htruthy
    have hver := (initSession_ok_state s w gen s2 n hinit).1
    have hinit1 : (initSession s w).1 = Except.ok (gen, s2) := by rw [hinit]
    unfold export_scp
    rw [hinit1]
    dsimp only
    rw [oem_action_uri_cached s2 w ("ExportSystemConfiguration".data) gen hver]
    dsimp only
    rw [haction]
    dsimp only
    have hnot : ¬ (resp.status_code ≠ 200 ∧ resp.status_code ≠ 202) := by
      intro hc
      rcases hstatus with h2 | h2
      · exact hc.1 h2
      · exact hc.2 h2
    rw [if_neg hnot, hloc]
    cases loc with
    | nil => exact absurd rfl hlocne
    | cons c cs =>
      dsimp only
      rw [hpoll]
      dsimp only
      rw [hstate, if_pos rfl]
      rw [hextract]
      show (if pyTruthy content = true then Except.ok content
        else Except.error PyErr.exportEmptyPayload) =
        Except.error PyErr.exportEmptyPayload
      rw [htruthy]
      simp

/-- Witness for C4: the structured field `"x"` is returned exactly for XML;
and against `wGood` (whose `Completed` job body carries no payload in any
strategy) `export_scp` raises the empty-payload error. -/
theorem C4_scp_extraction_witness :
    extract_scp_content tdDellX ("XML".data) = Except.ok (Json.str ['x']) ∧
    export_scp sTest wGood ("ALL".data) ("XML".data) ("Default".data) 15 1800
      (by decide) = Except.error PyErr.exportEmptyPayload := by
  constructor
  · exact ((C4_scp_extraction.1 tdDellX ("XML".data)
      [Json.obj [("Oem".data, Json.obj [("Dell".data, Json.obj
        [("ServerConfigurationProfile".data, Json.str ['x'])])])]]
      rfl (by decide) (by decide)).1 (Json.str ['x']) rfl (by decide))
  · have hpoll : (poll_job wGood
        (lastSegment ("/redfish/v1/TaskService/Tasks/JID_123".data)) 15 1800
        (by decide)).1 = Except.ok tdCompleted := by
      unfold poll_job
      rw [pollGo_terminal_step wGood _ 15 1800 (by decide) 0
        (pollResp tdCompleted) (by decide) rfl (by decide) (by decide)]
      rfl
    exact C4_scp_extraction.2 sTest wGood ("ALL".data) ("XML".data)
      ("Default".data) 15 1800 (by decide) 9 1 sTest9 respAccepted
      ("/redfish/v1/TaskService/Tasks/JID_123".data) tdCompleted (Json.str [])
      rfl rfl (Or.inr rfl) rfl (by decide) hpoll (by decide) rfl rfl

/-- Counterexample to C4 as stated: for JSON format the vendor-namespaced
field is not returned unmodified — its string value `"x"` comes back
re-serialized as a quoted JSON string. -/
theorem C4_scp_extraction_counterexample :
    extract_scp_content tdDellX ("JSON".data) =
      Except.ok (Json.str ['"', 'x', '"']) ∧
    extract_scp_content tdDellX ("JSON".data) ≠ Except.ok (Json.str ['x']) := by
  refine ⟨rfl, ?_⟩
  intro h
  rw [show extract_scp_content tdDellX ("JSON".data) =
    Except.ok (Json.str ['"', 'x', '"']) from rfl] at h
  injection h with h2
  injection h2 with h3
  exact absurd h3 (by decide)


/-- Looking up the key just inserted returns the new value. -/
theorem lookupB_dictInsert_self (k : List Char) (v : Bool) :
    ∀ d : List (List Char × Bool), lookupB k (dictInsert k v d) = some v := by
  intro d
  induction d with
  | nil => simp [dictInsert, lookupB]
  | cons kv rest ih =>
    obtain ⟨k2, v2⟩ := kv
    by_cases h : k2 = k
    · simp [dictInsert, lookupB, h]
    · simp [dictInsert, lookupB, h, ih]

/-- Inserting under a different key leaves a lookup unchanged. -/
theorem lookupB_dictInsert_other (k k2 : List Char) (v : Bool) (h : k2 ≠ k) :
    ∀ d : List (List Char × Bool), lookupB k (dictInsert k2 v d) = lookupB k d := by
  intro d
  induction d with
  | nil => simp [dictInsert, lookupB, h]
  | cons kv rest ih =>
    obtain ⟨k3, v3⟩ := kv
    by_cases h3 : k3 = k2
    · subst h3
      simp [dictInsert, lookupB, h]
    · simp [dictInsert, lookupB, h3, ih]

/-- The keys after a dict assignment: unchanged when the key exists,
appended otherwise. -/
theorem keysOf_dictInsert (k : List Char) (v : Bool) :
    ∀ d : List (List Char × Bool),
      keysOf (dictInsert k v d) =
        if k ∈ keysOf d then keysOf d else keysOf d ++ [k] := by
  intro d
  induction d with
  | nil => simp [dictInsert, keysOf]
  | cons kv rest ih =>
    obtain ⟨k2, v2⟩ := kv
    by_cases h : k2 = k
    · subst h
      simp [dictInsert, keysOf]
    · have hne : ¬ k = k2 := fun hc => h hc.symm
      simp only [dictInsert, h, if_false, keysOf, List.map_cons, List.mem_cons, hne,
        false_or]
      rw [keysOf] at ih
      by_cases hm : k ∈ List.map Prod.fst rest
      · simp [keysOf, hm] at ih ⊢
        exact ih
      · simp [keysOf, hm] at ih ⊢
        exact ih

/-- Lookup after the orchestration loop: the last occurrence wins; absent
keys fall through to the accumulator. -/
theorem orchGo_lookup (step : Nat → List Char → Bool) :
    ∀ (ts : List (List Char)) (idx : Nat) (acc : List (List Char × Bool))
      (ip : List Char),
      lookupB ip (orchGo step ts idx acc) =
        match lastIdxOf ip ts with
        | some j => some (step (idx + j) ip)
        | none => lookupB ip acc := by
  intro ts
  induction ts with
  | nil => intro idx acc ip; rfl
  | cons x rest ih =>
    intro idx acc ip
    rw [orchGo, ih]
    cases hrest : lastIdxOf ip rest with
    | some j =>
      show some (step (idx + 1 + j) ip) =
        match lastIdxOf ip (x :: rest) with
        | some j => some (step (idx + j) ip)
        | none => lookupB ip acc
      rw [lastIdxOf, hrest]
      dsimp only
      rw [show idx + 1 + j = idx + (j + 1) by omega]
    | none =>
      show lookupB ip (dictInsert x (step idx x) acc) =
        match lastIdxOf ip (x :: rest) with
        | some j => some (step (idx + j) ip)
        | none => lookupB ip acc
      rw [lastIdxOf, hrest]
      by_cases hx : x = ip
      · subst hx
        simp [lookupB_dictInsert_self]
      · simp only [hx, if_false]
        rw [lookupB_dictInsert_other ip x (step idx x) hx acc]

/-- A member always has a last occurrence index. -/
theorem lastIdxOf_mem :
    ∀ (ts : List (List Char)) (x : List Char), x ∈ ts →
      ∃ j, lastIdxOf x ts = some j := by
  intro ts
  induction ts with
  | nil => intro x hx; cases hx
  | cons y rest ih =>
    intro x hx
    cases hrest : lastIdxOf x rest with
    | some j => exact ⟨j + 1, by rw [lastIdxOf, hrest]⟩
    | none =>
      have hy : y = x := by
        rcases List.mem_cons.mp hx with h | h
        · exact h.symm
        · obtain ⟨j, hj⟩ := ih x h
          rw [hj] at hrest
          cases hrest
      exact ⟨0, by rw [lastIdxOf, hrest]; simp [hy]⟩

/-- The keys accumulated by the orchestration loop: the accumulator's keys
followed by the first occurrences of the remaining targets. -/
theorem orchGo_keys (step : Nat → List Char → Bool) :
    ∀ (ts : List (List Char)) (idx : Nat) (acc : List (List Char × Bool)),
      keysOf (orchGo step ts idx acc) = keysOf acc ++ dedupSeen (keysOf acc) ts := by
  intro ts
  induction ts with
  | nil => intro idx acc; simp [orchGo, dedupSeen]
  | cons x rest ih =>
    intro idx acc
    rw [orchGo, ih, keysOf_dictInsert, dedupSeen]
    by_cases hm : x ∈ keysOf acc
    · simp only [hm, if_pos, if_true]
    · simp only [hm, if_false, if_neg, List.append_assoc, List.singleton_append]

/-- First-occurrence deduplication never grows the list. -/
theorem dedupSeen_length_le :
    ∀ (ts seen : List (List Char)), (dedupSeen seen ts).length ≤ ts.length := by
  intro ts
  induction ts with
  | nil => intro seen; simp [dedupSeen]
  | cons x rest ih =>
    intro seen
    rw [dedupSeen]
    by_cases hm : x ∈ seen
    · simp only [hm, if_pos, if_true]
      exact Nat.le_succ_of_le (ih seen)
    · simp only [hm, if_false, if_neg, List.length_cons]
      exact Nat.succ_le_succ (ih (seen ++ [x]))

/-- Deduplication against a seen set containing a list member is strictly
shrinking. -/
theorem dedupSeen_length_lt :
    ∀ (ts seen : List (List Char)) (x : List Char), x ∈ seen → x ∈ ts →
      (dedupSeen seen ts).length < ts.length := by
  intro ts
  induction ts with
  | nil => intro seen x _ hx; cases hx
  | cons y rest ih =>
    intro seen x hseen hx
    rw [dedupSeen]
    by_cases hm : y ∈ seen
    · simp only [hm, if_pos, if_true, List.length_cons]
      exact Nat.lt_succ_of_le (dedupSeen_length_le rest seen)
    · have hxy : x ≠ y := fun hc => hm (hc ▸ hseen)
      have hxr : x ∈ rest := by
        rcases List.mem_cons.mp hx with h | h
        · exact absurd h hxy
        · exact h
      simp only [hm, if_false, if_neg, List.length_cons]
      exact Nat.succ_lt_succ
        (ih (seen ++ [y]) x (List.mem_append.mpr (Or.inl hseen)) hxr)

/-- A duplicated target list deduplicates to strictly fewer entries. -/
theorem dedupSeen_length_lt_of_dup :
    ∀ (ts seen : List (List Char)), ¬ ts.Nodup →
      (dedupSeen seen ts).length < ts.length := by
  intro ts
  induction ts with
  | nil => intro seen h; exact absurd List.nodup_nil h
  | cons y rest ih =>
    intro seen h
    rw [dedupSeen]
    by_cases hm : y ∈ seen
    · simp only [hm, if_pos, if_true, List.length_cons]
      exact Nat.lt_succ_of_le (dedupSeen_length_le rest seen)
    · simp only [hm, if_false, if_neg, List.length_cons]
      rw [List.nodup_cons] at h
      push_neg at h
      by_cases hyr : y ∈ rest
      · exact Nat.succ_lt_succ
          (dedupSeen_length_lt rest (seen ++ [y]) y (by simp) hyr)
      · exact Nat.succ_lt_succ (ih (seen ++ [y]) (h hyr))

/-- First-occurrence membership survives deduplication. -/
theorem mem_dedupSeen :
    ∀ (ts seen : List (List Char)) (x : List Char), x ∈ ts → x ∉ seen →
      x ∈ dedupSeen seen ts := by
  intro ts
  induction ts with
  | nil => intro seen x hx _; cases hx
  | cons y rest ih =>
    intro seen x hx hns
    rw [dedupSeen]
    by_cases hxy : x = y
    · subst hxy
      simp only [hns, if_neg, if_false]
      exact List.mem_cons_self ..
    · have hxr : x ∈ rest := by
        rcases List.mem_cons.mp hx with h | h
        · exact absurd h hxy
        · exact h
      by_cases hm : y ∈ seen
      · simp only [hm, if_pos, if_true]
        exact ih seen x hxr hns
      · simp only [hm, if_false, if_neg]
        refine List.mem_cons_of_mem _ (ih (seen ++ [y]) x hxr ?_)
        intro hc
        rcases List.mem_append.mp hc with h2 | h2
        · exact hns h2
        · exact hxy (by simpa using h2)

/-- Deduplicated keys are distinct. -/
theorem dedupSeen_nodup :
    ∀ (ts seen : List (List Char)), seen.Nodup →
      (seen ++ dedupSeen seen ts).Nodup := by
  intro ts
  induction ts with
  | nil => intro seen h; simpa [dedupSeen]
  | cons y rest ih =>
    intro seen h
    rw [dedupSeen]
    by_cases hm : y ∈ seen
    · simp only [hm, if_pos, if_true]
      exact ih seen h
    · simp only [hm, if_false, if_neg]
      have := ih (seen ++ [y]) (by
        rw [List.nodup_append]
        exact ⟨h, List.nodup_singleton y, by simpa using hm⟩)
      rwa [List.append_assoc, List.singleton_append] at this

/-- C1: every call to `import_scp` raises `AttributeError` with zero network
requests, because `session.check_supported()` is evaluated first and
`IdracSession` defines no such attribute (nor `detect_generation`); hence
`import_scp` never returns `True`, and through the orchestrator's catch-all
`except Exception` handler every supplied target of every run is recorded as
failed. -/
theorem C1_import_attribute_error :
    ∀ (s : IdracSession) (w : World) (target shutdown power : List Char)
      (interval timeout : Nat) (hpos : 0 < interval),
      import_scp s w target shutdown power interval timeout hpos =
        (Except.error PyErr.attributeError, 0) ∧
      (import_scp s w target shutdown power interval timeout hpos).1 ≠
        Except.ok true ∧
      (∀ (a : OrchArgs) (targets : List (List Char)) (worlds : Nat → World)
        (ip : List Char), ip ∈ targets →
        lookupB ip (import_scp_to_targets a targets worlds) = some false) := by
  intro s w target shutdown power interval timeout hpos
  have hfail : ∀ (s2 : IdracSession) (w2 : World) (t2 sh2 pw2 : List Char)
      (i2 to2 : Nat) (h2 : 0 < i2),
      import_scp s2 w2 t2 sh2 pw2 i2 to2 h2 =
        (Except.error PyErr.attributeError, 0) := fun _ _ _ _ _ _ _ _ => rfl
  refine ⟨hfail s w target shutdown power interval timeout hpos, ?_, ?_⟩
  · rw [hfail s w target shutdown power interval timeout hpos]
    simp
  · intro a targets worlds ip hmem
    have hstep : ∀ idx ip2,
        excToBool (importOneTarget a (worlds idx) ip2) = false := by
      intro idx ip2
      unfold importOneTarget excToBool
      rw [hfail]
    unfold import_scp_to_targets
    rw [orchGo_lookup]
    obtain ⟨j, hj⟩ := lastIdxOf_mem targets ip hmem
    rw [hj]
    exact congrArg some (hstep (0 + j) ip)

/-- Witness for C1: one concrete session/world and a one-target run. -/
theorem C1_import_attribute_error_witness :
    import_scp sTest wGood ("ALL".data) ("Graceful".data) ("On".data) 15 1800
      (by decide) = (Except.error PyErr.attributeError, 0) ∧
    lookupB ("10.0.0.9".data)
      (import_scp_to_targets aTest [("10.0.0.9".data)] (fun _ => wGood)) =
      some false :=
  ⟨(C1_import_attribute_error sTest wGood ("ALL".data) ("Graceful".data)
      ("On".data) 15 1800 (by decide)).1,
   (C1_import_attribute_error sTest wGood ("ALL".data) ("Graceful".data)
      ("On".data) 15 1800 (by decide)).2.2 aTest [("10.0.0.9".data)]
      (fun _ => wGood) ("10.0.0.9".data) (by simp)⟩

/-- C3 (amended): `import_scp` as written raises `AttributeError` on every
call and never returns; its body after the two undefined calls (lines
36–90) returns `False` — it does not raise — for request-submission-level
faults (an import POST status other than 200/202, or a missing `Location`
header), and uses its boolean return for the job outcome: `True` exactly
when the polled job's terminal `TaskState` equals `"Completed"`. -/
theorem C3_import_boolean_semantics :
    ∀ (s : IdracSession) (w : World) (target shutdown power : List Char)
      (interval timeout : Nat) (hpos : 0 < interval) (raw : List Char)
      (resp : Response),
      import_scp s w target shutdown power interval timeout hpos =
        (Except.error PyErr.attributeError, 0) ∧
      (w.file = Except.ok raw → (read_scp_file raw).isEmpty = false →
        ∀ (uri : List Char) (s2 : IdracSession) (n1 : Nat),
        oem_action_uri s w ("ImportSystemConfiguration".data) =
          (Except.ok (uri, s2), n1) →
        w.action (importPayload (read_scp_file raw) target shutdown power) =
          Except.ok resp →
        ((resp.status_code ≠ 200 ∧ resp.status_code ≠ 202) →
          (import_scp_body s w target shutdown power interval timeout hpos).1 =
            Except.ok false) ∧
        ((resp.status_code = 200 ∨ resp.status_code = 202) →
          headerGetD resp ("Location".data) = [] →
          (import_scp_body s w target shutdown power interval timeout hpos).1 =
            Except.ok false) ∧
        (∀ (loc : List Char) (td : Json) (c : Nat) (msgs : List Json)
          (mtext : List Char),
          (resp.status_code = 200 ∨ resp.status_code = 202) →
          headerGetD resp ("Location".data) = loc → loc ≠ [] →
          poll_job w (lastSegment loc) interval timeout hpos =
            (Except.ok td, c) →
          jGetD td ("Messages".data) (Json.arr []) = Json.arr msgs →
          joinMessagesTruthy msgs = Except.ok mtext →
          (import_scp_body s w target shutdown power interval timeout hpos).1 =
            Except.ok (jsonEqStr (taskStateOf td) ("Completed".data)))) := by
  intro s w target shutdown power interval timeout hpos raw resp
  refine ⟨rfl, ?_⟩
  intro hfile hne uri s2 n1 hoem haction
  have hbody : ∀ (rest : Except PyErr Bool × Nat → Prop), True := fun _ => trivial
  refine ⟨?_, ?_, ?_⟩
  · intro hbad
    simp only [import_scp_body, hfile, hne, Bool.false_eq_true, if_false,
      hoem, haction]
    rw [if_pos hbad]
  · intro hok hnoloc
    have hnot : ¬ (resp.status_code ≠ 200 ∧ resp.status_code ≠ 202) := by
      intro hc
      rcases hok with h2 | h2
      · exact hc.1 h2
      · exact hc.2 h2
    simp only [import_scp_body, hfile, hne, Bool.false_eq_true, if_false,
      hoem, haction]
    rw [if_neg hnot, hnoloc]
  · intro loc td c msgs mtext hok hloc hlocne hpoll hmsgs hjoin
    have hnot : ¬ (resp.status_code ≠ 200 ∧ resp.status_code ≠ 202) := by
      intro hc
      rcases hok with h2 | h2
      · exact hc.1 h2
      · exact hc.2 h2
    simp only [import_scp_body, hfile, hne, Bool.false_eq_true, if_false,
      hoem, haction]
    rw [if_neg hnot, hloc]
    cases loc with
    | nil => exact absurd rfl hlocne
    | cons ch cs =>
      simp only [hpoll, hmsgs, hjoin]

/-- Witness for C3: a 500 import POST yields a `False` return (no raise),
and a clean run whose job completes yields `True`. -/
theorem C3_import_boolean_semantics_witness :
    (import_scp_body sTest wBadStatus ("ALL".data) ("Graceful".data)
      ("On".data) 15 1800 (by decide)).1 = Except.ok false ∧
    (import_scp_body sTest wGood ("ALL".data) ("Graceful".data)
      ("On".data) 15 1800 (by decide)).1 = Except.ok true := by
  constructor
  · exact ((C3_import_boolean_semantics sTest wBadStatus ("ALL".data)
      ("Graceful".data) ("On".data) 15 1800 (by decide)
      ("<SystemConfiguration><x/></SystemConfiguration>".data)
      respServerError).2 rfl (by decide)
      (oemUriFor 9 ("ImportSystemConfiguration".data)) sTest9 1 rfl rfl).1
      (by decide)
  · have hpoll : poll_job wGood
        (lastSegment ("/redfish/v1/TaskService/Tasks/JID_123".data)) 15 1800
        (by decide) = (Except.ok tdCompleted, 1) := by
      unfold poll_job
      rw [pollGo_terminal_step wGood _ 15 1800 (by decide) 0
        (pollResp tdCompleted) (by decide) rfl (by decide) (by decide)]
      rfl
    have h := ((C3_import_boolean_semantics sTest wGood ("ALL".data)
      ("Graceful".data) ("On".data) 15 1800 (by decide)
      ("<SystemConfiguration><x/></SystemConfiguration>".data)
      respAccepted).2 rfl (by decide)
      (oemUriFor 9 ("ImportSystemConfiguration".data)) sTest9 1 rfl rfl).2.2
      ("/redfish/v1/TaskService/Tasks/JID_123".data) tdCompleted 1
      [Json.obj [("Message".data, Json.str ("Successfully imported".data))]]
      ("Successfully imported".data) (Or.inr rfl) rfl (by decide) hpoll rfl rfl
    rw [h]
    rfl

/-- Counterexample to C3 as stated: in a run whose import POST is accepted
and whose job reaches the terminal state `Completed`, `import_scp` does not
return `True` — it raises `AttributeError` on the undefined
`check_supported` before any of the submission logic runs. -/
theorem C3_import_boolean_semantics_counterexample :
    (import_scp sTest wGood ("ALL".data) ("Graceful".data) ("On".data) 15 1800
      (by decide)).1 = Except.error PyErr.attributeError ∧
    (import_scp sTest wGood ("ALL".data) ("Graceful".data) ("On".data) 15 1800
      (by decide)).1 ≠ Except.ok true := by
  refine ⟨rfl, ?_⟩
  intro h
  rw [show (import_scp sTest wGood ("ALL".data) ("Graceful".data) ("On".data)
    15 1800 (by decide)).1 = Except.error PyErr.attributeError from rfl] at h
  exact Except.noConfusion h

/-- C2: the orchestrator always completes with a plain outcome map — its
return type carries no exception — holding one boolean per distinct target
address in first-occurrence order; every supplied address is present, bound
to its last occurrence's outcome with any raised exception caught and
collapsed to `False`, so one target's failure never stops the run. -/
theorem C2_orchestrator_isolation :
    ∀ (a : OrchArgs) (targets : List (List Char)) (worlds : Nat → World),
      keysOf (import_scp_to_targets a targets worlds) = pyDedupFirst targets ∧
      (∀ ip, ip ∈ targets → ∃ j, lastIdxOf ip targets = some j ∧
        lookupB ip (import_scp_to_targets a targets worlds) =
          some (excToBool (importOneTarget a (worlds j) ip))) ∧
      (∀ (ip : List Char) (j : Nat) (e : PyErr),
        lastIdxOf ip targets = some j →
        importOneTarget a (worlds j) ip = Except.error e →
        lookupB ip (import_scp_to_targets a targets worlds) = some false) := by
  intro a targets worlds
  refine ⟨?_, ?_, ?_⟩
  · unfold import_scp_to_targets pyDedupFirst
    rw [orchGo_keys]
    rfl
  · intro ip hmem
    obtain ⟨j, hj⟩ := lastIdxOf_mem targets ip hmem
    refine ⟨j, hj, ?_⟩
    unfold import_scp_to_targets
    rw [orchGo_lookup, hj]
    dsimp only
    rw [Nat.zero_add]
    cases importOneTarget a (worlds j) ip <;> rfl
  · intro ip j e hj herr
    unfold import_scp_to_targets
    rw [orchGo_lookup, hj]
    dsimp only
    rw [Nat.zero_add, herr]

/-- Witness for C2: a two-address run keeps both addresses in order, and a
target whose processing raises (here: the `AttributeError` of `import_scp`)
is recorded as `False` rather than aborting the loop. -/
theorem C2_orchestrator_isolation_witness :
    keysOf (import_scp_to_targets aTest [("10.0.0.9".data), ("10.0.0.8".data)]
        (fun _ => wGood)) =
      pyDedupFirst [("10.0.0.9".data), ("10.0.0.8".data)] ∧
    lookupB ("10.0.0.8".data)
      (import_scp_to_targets aTest [("10.0.0.9".data), ("10.0.0.8".data)]
        (fun _ => wGood)) = some false :=
  ⟨(C2_orchestrator_isolation aTest [("10.0.0.9".data), ("10.0.0.8".data)]
      (fun _ => wGood)).1,
   (C2_orchestrator_isolation aTest [("10.0.0.9".data), ("10.0.0.8".data)]
      (fun _ => wGood)).2.2 ("10.0.0.8".data) 1 PyErr.attributeError rfl rfl⟩

/-- In a duplicate-free list every member is counted exactly once. -/
theorem countKey_eq_one {l : List (List Char)} {a : List Char}
    (h1 : l.Nodup) (h2 : a ∈ l) : l.count a = 1 := by
  induction l with
  | nil => cases h2
  | cons x rest ih =>
    rw [List.nodup_cons] at h1
    rw [List.count_cons]
    rcases List.mem_cons.mp h2 with h | h
    · subst h
      rw [List.count_eq_zero.mpr h1.1]
      simp
    · rw [ih h1.2 h]
      have hne : ¬ x = a := by
        intro hc
        subst hc
        exact h1.1 h
      simp [hne]

/-- C10: the outcome map is keyed by address, so a duplicated address ends
up with exactly one entry carrying the outcome of its last occurrence, and
a duplicated target list yields strictly fewer map entries than supplied
targets. -/
theorem C10_outcome_map_last_wins :
    ∀ (a : OrchArgs) (targets : List (List Char)) (worlds : Nat → World)
      (ip : List Char), ip ∈ targets →
      (∃ j, lastIdxOf ip targets = some j ∧
        lookupB ip (import_scp_to_targets a targets worlds) =
          some (excToBool (importOneTarget a (worlds j) ip))) ∧
      List.count ip (keysOf (import_scp_to_targets a targets worlds)) = 1 ∧
      (import_scp_to_targets a targets worlds).length ≤ targets.length ∧
      (¬ targets.Nodup →
        (import_scp_to_targets a targets worlds).length < targets.length) := by
  intro a targets worlds ip hmem
  have hkeys : keysOf (import_scp_to_targets a targets worlds) =
      dedupSeen [] targets := by
    unfold import_scp_to_targets
    rw [orchGo_keys]
    rfl
  have hlen : (import_scp_to_targets a targets worlds).length =
      (dedupSeen [] targets).length := by
    have h := congrArg List.length hkeys
    simpa [keysOf] using h
  refine ⟨?_, ?_, ?_, ?_⟩
  · obtain ⟨j, hj⟩ := lastIdxOf_mem targets ip hmem
    refine ⟨j, hj, ?_⟩
    unfold import_scp_to_targets
    rw [orchGo_lookup, hj]
    dsimp only
    rw [Nat.zero_add]
    cases importOneTarget a (worlds j) ip <;> rfl
  · rw [hkeys]
    have hnd : (dedupSeen [] targets).Nodup := by
      have h := dedupSeen_nodup targets [] List.nodup_nil
      simpa using h
    have hm : ip ∈ dedupSeen [] targets :=
      mem_dedupSeen targets [] ip hmem (by simp)
    exact countKey_eq_one hnd hm
  · rw [hlen]
    exact dedupSeen_length_le targets []
  · intro hdup
    rw [hlen]
    exact dedupSeen_length_lt_of_dup targets [] hdup

/-- Witness for C10: with `1.1.1.1` supplied twice around `2.2.2.2`, its key
appears once and the map has two entries for three targets. -/
theorem C10_outcome_map_last_wins_witness :
    List.count ("1.1.1.1".data)
      (keysOf (import_scp_to_targets aTest
        [("1.1.1.1".data), ("2.2.2.2".data), ("1.1.1.1".data)]
        (fun _ => wGood))) = 1 ∧
    (import_scp_to_targets aTest
      [("1.1.1.1".data), ("2.2.2.2".data), ("1.1.1.1".data)]
      (fun _ => wGood)).length < 3 :=
  ⟨(C10_outcome_map_last_wins aTest
      [("1.1.1.1".data), ("2.2.2.2".data), ("1.1.1.1".data)]
      (fun _ => wGood) ("1.1.1.1".data) (by simp)).2.1,
   (C10_outcome_map_last_wins aTest
      [("1.1.1.1".data), ("2.2.2.2".data), ("1.1.1.1".data)]
      (fun _ => wGood) ("1.1.1.1".data) (by simp)).2.2.2 (by decide)⟩

end Idrac
